import Mathlib

/-!
# Etherscan exporter (`src/app.go`): shallow embedding and verified properties

A Go `string` is a sequence of bytes.  It is embedded as a list of characters,
one list element per byte, so `len(s)` is `List.length` and `s[a:b]` is a
`take`/`drop`.  Go `int`/`int64` values are embedded as `Int`; the places where
the 64-bit width matters (`strconv.ParseInt`) carry explicit bounds.
A run-time panic (slice out of range, negative repeat count) and the end of the
process in `log.Fatal` are `none`.

What the handler cannot control is a parameter: the network, the working directory
and the files (`World`), and the effect of `encoding/json` on the two structs
(`JsonDecoder`).  The handler `metrics` returns its final state: the local `up`, the
sequence of `io.WriteString` calls on the response, and the sequence of `log.Print`
calls.
-/

namespace Etherscan

/-- A Go string: its bytes, in order. -/
abbrev GoString := List Char

/-! ## Library functions used by `app.go` -/

/-- Go `strings.Repeat(s, count)`: panics when `count` is negative. -/
def stringsRepeat (s : GoString) (count : Int) : Option GoString :=
  if count < 0 then none else some (List.replicate count.toNat s).flatten

/-- Go slice expression `s[:hi]`: panics unless `0 ≤ hi ≤ len(s)`. -/
def sliceTo (s : GoString) (hi : Int) : Option GoString :=
  if 0 ≤ hi ∧ hi ≤ (s.length : Int) then some (s.take hi.toNat) else none

/-- Go slice expression `s[lo:]`: panics unless `0 ≤ lo ≤ len(s)`. -/
def sliceFrom (s : GoString) (lo : Int) : Option GoString :=
  if 0 ≤ lo ∧ lo ≤ (s.length : Int) then some (s.drop lo.toNat) else none

/-- Go `strconv.FormatInt(value, 10)`: the decimal digits, with a leading `-`
for a negative value. -/
def FormatInt (value : Int) : GoString :=
  if value < 0 then '-' :: Nat.toDigits 10 value.natAbs else Nat.toDigits 10 value.natAbs

/-- Go `strings.Replace(s, old, new, -1)` for a non-empty `old`, scanning from
the left: at a position where `old` matches, `new` is produced and the matched
bytes are skipped (the counter is the number of matched bytes still to skip). -/
def replaceFrom (old new : GoString) : Nat → GoString → GoString
  | _, [] => []
  | skip + 1, _ :: cs => replaceFrom old new skip cs
  | 0, c :: cs =>
    if old.isPrefixOf (c :: cs) then new ++ replaceFrom old new (old.length - 1) cs
    else c :: replaceFrom old new 0 cs

/-- Go `strings.Replace(s, old, new, -1)`: every non-overlapping occurrence of
`old` is replaced, leftmost first.  Both call sites pass a non-empty constant
`old`; the empty-`old` behaviour is not modelled. -/
def stringsReplaceAll (s old new : GoString) : GoString := replaceFrom old new 0 s

/-- The two error kinds of `strconv.NumError`: `ErrSyntax` and `ErrRange`. -/
inductive NumErrKind where
  | invalid
  | range
  deriving DecidableEq

/-- Go `strconv.lower`: `c | ('x' - 'X')`, on the byte's number. -/
def lower (c : Nat) : Nat := c ||| 0x20

/-- The digit a byte stands for in `strconv.ParseUint` (before the comparison
with the base): `0`-`9`, then letters of either case from 10 up. -/
def digitOf (c : Char) : Option Nat :=
  if '0'.toNat ≤ c.toNat ∧ c.toNat ≤ '9'.toNat then some (c.toNat - '0'.toNat)
  else if 'a'.toNat ≤ lower c.toNat ∧ lower c.toNat ≤ 'z'.toNat then
    some (lower c.toNat - 'a'.toNat + 10)
  else none

/-- The digit loop of Go `strconv.ParseUint(s, 16, 64)`, with `n` the value
accumulated so far in a `uint64`.  `cutoff = maxUint64/16 + 1 = 2^60` and
`maxVal = 2^64 - 1`; the result is Go's `(value, err)` pair. -/
def parseUintLoop : GoString → Nat → Nat × Option NumErrKind
  | [], n => (n, none)
  | c :: cs, n =>
    match digitOf c with
    | none => (0, some .invalid)
    | some d =>
      if d ≥ 16 then (0, some .invalid)
      else if n ≥ (2 ^ 64 - 1) / 16 + 1 then (2 ^ 64 - 1, some .range)
      else
        let n := (n * 16) % 2 ^ 64
        let n1 := (n + d) % 2 ^ 64
        if n1 < n ∨ n1 > 2 ^ 64 - 1 then (2 ^ 64 - 1, some .range)
        else parseUintLoop cs n1

/-- Go `strconv.ParseUint(s, 16, 64)`. -/
def ParseUint (s : GoString) : Nat × Option NumErrKind :=
  if s = [] then (0, some .invalid) else parseUintLoop s 0

/-- Conversion `int64(x)` of a 64-bit pattern, and 64-bit wrap-around of a
signed result. -/
def wrapInt64 (x : Int) : Int := (x + 2 ^ 63) % 2 ^ 64 - 2 ^ 63

/-- The tail of Go `strconv.ParseInt(s, 16, 64)`, after `ParseUint` has returned
`(un, err)`: a syntax error is passed on; otherwise the signed range check against
`cutoff = 2^63`, the conversion `int64(un)` and the negation. -/
def signedResult (neg : Bool) (r : Nat × Option NumErrKind) : Int × Option NumErrKind :=
  match r with
  | (_, some .invalid) => (0, some .invalid)
  | (un, _) =>
    let cutoff : Nat := 2 ^ 63
    if neg = false ∧ un ≥ cutoff then ((cutoff : Int) - 1, some .range)
    else if neg = true ∧ un > cutoff then (-(cutoff : Int), some .range)
    else
      let n := wrapInt64 un
      let n := if neg then wrapInt64 (-n) else n
      (n, none)

/-- Go `strconv.ParseInt(s, 16, 64)`: an optional leading sign is picked off, the
rest goes to `ParseUint`. -/
def ParseInt (s : GoString) : Int × Option NumErrKind :=
  if s = [] then (0, some .invalid)
  else
    match s with
    | '+' :: t => signedResult false (ParseUint t)
    | '-' :: t => signedResult true (ParseUint t)
    | _ => signedResult false (ParseUint s)

/-- A Go `error` value as it reaches `log.Print`. -/
inductive GoError where
  | lib (msg : GoString)
  | errorsNew (msg : GoString)
  | numError (func num : GoString) (kind : NumErrKind)
  deriving DecidableEq

/-- One call of `log.Print`. -/
inductive LogEntry where
  | text (msg : GoString)
  | error (err : GoError)
  deriving DecidableEq

/-- What `http.Get` hands back on success: the status code and the outcome of
`io.ReadAll(resp.Body)` (bytes read, error). -/
structure HttpResponse where
  StatusCode : Int
  Body : GoString
  ReadErr : Option GoError

/-- The environment of one scrape: the network's answer to a GET request for each
URL (the URLs requested in one scrape are pairwise different), `os.Getwd` and
`os.ReadFile`. -/
structure World where
  respond : GoString → Except GoError HttpResponse
  getwd : Except GoError GoString
  readFile : GoString → Except GoError GoString

/-- An ASCII control byte, as in `net/url`'s `stringContainsCTLByte`: below `0x20`,
or `0x7f`. -/
def isCTL (c : Char) : Bool := c.toNat < 0x20 || c.toNat == 0x7f

/-- Go `http.Get(url)`.  The URL is parsed before any request is made, and `net/url`
rejects a URL that contains an ASCII control byte; otherwise the outcome is the
network's. -/
def httpGet (world : World) (url : GoString) : Except GoError HttpResponse :=
  if url.any isCTL then .error (.lib "net/url: invalid control character in URL".toList)
  else world.respond url

/-- An element of `EtherScanBalanceMulti.Result` (an anonymous struct in the source). -/
structure AccountBalance where
  Account : GoString
  Balance : GoString
  deriving DecidableEq

/-- Source `EtherScanBalanceMulti` (lines 25-32); the defaults are Go's zero values. -/
structure EtherScanBalanceMulti where
  Status : GoString := []
  Message : GoString := []
  Result : List AccountBalance := []
  deriving DecidableEq

/-- Source `EtherScanEthBlocKNumber` (lines 34-38). -/
structure EtherScanEthBlocKNumber where
  JsonRpc : GoString := []
  Id : GoString := []
  Result : GoString := []
  deriving DecidableEq

/-- The effect of `encoding/json` decoding on a destination struct, for each of the
two shapes; which fields a given non-empty input fills is left to the library. -/
structure JsonDecoder where
  balanceMulti : GoString → EtherScanBalanceMulti → EtherScanBalanceMulti
  blockNumber : GoString → EtherScanEthBlocKNumber → EtherScanEthBlocKNumber

/-- Go `json.Unmarshal(data, &v)` with the returned error dropped, as the source
does.  Empty input fails the validity scan before the destination is touched. -/
def jsonUnmarshal {α : Type} (fill : GoString → α → α) (data : GoString) (v : α) : α :=
  if data = [] then v else fill data v

/-! ## `app.go`, lines 16-23 -/

/-- Source constant `API_URL_MAINNET` (line 17). -/
def API_URL_MAINNET : GoString := "https://api.etherscan.io/api".toList

/-- Source constant `API_URL_TESTNET` (line 18). -/
def API_URL_TESTNET : GoString := "https://api-\x7b\x7bTESTNET\x7d\x7d.etherscan.io/api".toList

/-- The four package-level variables set by `main` from the process environment. -/
structure Config where
  testMode : GoString
  accountIds : GoString
  apiKey : GoString
  testNet : GoString

/-! ## `app.go`, lines 40-64 -/

/-- Source `integerToString`: `strconv.Itoa(value)`. -/
def integerToString (value : Int) : GoString := FormatInt value

/-- Source `integer64ToString`: `strconv.FormatInt(value, 10)`. -/
def integer64ToString (value : Int) : GoString := FormatInt value

/-- Source `baseUnitsToEth` (lines 48-53).  The value is left-padded with `0`
when it is shorter than `precision`, then cut at `len(value)-precision+1`. -/
def baseUnitsToEth (value : GoString) (precision : Int) : Option GoString := do
  let value ←
    if (value.length : Int) < precision then
      (stringsRepeat ['0'] (precision - value.length)).map (· ++ value)
    else
      some value
  let intPart ← sliceTo value (value.length - precision + 1)
  let fracPart ← sliceFrom value (value.length - precision + 1)
  pure (intPart ++ ".".toList ++ fracPart)

/-- Source `formatValue` (lines 55-64). -/
def formatValue (key meta value : GoString) : GoString :=
  let result := key
  let result := if meta ≠ [] then result ++ ("\x7b".toList ++ meta ++ "\x7d".toList) else result
  let result := result ++ " ".toList
  let result := result ++ value
  let result := result ++ "\n".toList
  result

/-! ## `app.go`, lines 66-186 -/

/-- Source `queryData` (lines 66-88): the body string and the error. -/
def queryData (world : World) (root path : GoString) : GoString × Option GoError :=
  let url := root ++ path
  match httpGet world url with
  | .error httpErr => ([], some httpErr)
  | .ok resp =>
    if resp.StatusCode ≠ 200 then
      ([], some (.errorsNew ("HTTP returned code ".toList ++ integerToString resp.StatusCode)))
    else
      let bodyString := resp.Body
      match resp.ReadErr with
      | some ioErr => ([], some ioErr)
      | none => (bodyString, none)

/-- Source `getTestData` (lines 90-100).  `none` is `log.Fatal`: the process exits. -/
def getTestData (world : World) (file : GoString) : Option (GoString × Option GoError) :=
  match world.getwd with
  | .error _ => none
  | .ok dir =>
    match world.readFile (dir ++ "/".toList ++ file) with
    | .error _ => none
    | .ok body => some (body, none)

/-- The local variables of `metrics` assigned in lines 115-128. -/
structure Fetched where
  jsonString : GoString
  err : Option GoError
  jsonStringBlockNumber : GoString
  errBlockNumber : Option GoError
  jsonStringBlockNumberTestnet : GoString := []
  errBlockNumberTestnet : Option GoError := none

/-- Query path of the balance request (line 120). -/
def balancePath (cfg : Config) : GoString :=
  "?module=account&action=balancemulti&address=".toList ++ cfg.accountIds ++
    "&tag=latest&apikey=".toList ++ cfg.apiKey

/-- Query path of both block-number requests (lines 121 and 126). -/
def blockNumberPath (cfg : Config) : GoString :=
  "?module=proxy&action=eth_blockNumber&apikey=".toList ++ cfg.apiKey

/-- The value of `testNetUrl` (line 125). -/
def testNetUrl (cfg : Config) : GoString :=
  stringsReplaceAll API_URL_TESTNET "\x7b\x7bTESTNET\x7d\x7d".toList cfg.testNet

/-- Lines 115-128 of `metrics`: fixture files in test mode, upstream requests
otherwise.  `none` when `getTestData` ends the process. -/
def fetch (cfg : Config) (world : World) : Option Fetched :=
  if cfg.testMode = "1".toList then do
    let (jsonString, err) ← getTestData world "test.json".toList
    let (jsonStringBlockNumber, errBlockNumber) ←
      getTestData world "test-blocknumber.json".toList
    pure { jsonString, err, jsonStringBlockNumber, errBlockNumber }
  else
    let (jsonString, err) := queryData world API_URL_MAINNET (balancePath cfg)
    let (jsonStringBlockNumber, errBlockNumber) :=
      queryData world API_URL_MAINNET (blockNumberPath cfg)
    if cfg.testNet ≠ [] then
      let (jsonStringBlockNumberTestnet, errBlockNumberTestnet) :=
        queryData world (testNetUrl cfg) (blockNumberPath cfg)
      some { jsonString, err, jsonStringBlockNumber, errBlockNumber,
             jsonStringBlockNumberTestnet, errBlockNumberTestnet }
    else
      some { jsonString, err, jsonStringBlockNumber, errBlockNumber }

/-- The mutable state of one run of `metrics`: the local `up`, what has been
written to the response (one entry per `io.WriteString` call, in order) and what
has been logged. -/
structure HandlerState where
  up : Int
  w : List GoString
  log : List LogEntry
  deriving DecidableEq

/-- The response body: everything written, concatenated. -/
def HandlerState.body (st : HandlerState) : GoString := st.w.flatten

/-- Go `log.Print(e)`. -/
def logPrint (st : HandlerState) (e : LogEntry) : HandlerState :=
  { st with log := st.log ++ [e] }

/-- Go `io.WriteString(w, s)`. -/
def writeString (st : HandlerState) (s : GoString) : HandlerState :=
  { st with w := st.w ++ [s] }

/-- The pattern of lines 130-143: `if err != nil { log.Print(err); up = 0 }`. -/
def checkErr (st : HandlerState) (err : Option GoError) : HandlerState :=
  match err with
  | some e => { logPrint st (.error e) with up := 0 }
  | none => st

/-- The expression of lines 168 and 177:
`strconv.ParseInt(strings.Replace(result, "0x", "", -1), 16, 64)`. -/
def parseBlockNumber (result : GoString) : Int × Option NumErrKind :=
  ParseInt (stringsReplaceAll result "0x".toList [])

/-- The pattern of lines 168-174 and 177-184: decode the result; on an error log
it and set `up = 0`, otherwise write the block-number line under `key`. -/
def emitBlockNumber (st : HandlerState) (key result : GoString) : HandlerState :=
  match parseBlockNumber result with
  | (_, some kind) =>
    { logPrint st (.error (.numError "ParseInt".toList
        (stringsReplaceAll result "0x".toList []) kind)) with up := 0 }
  | (ethBlock, none) => writeString st (formatValue key [] (integer64ToString ethBlock))

/-- The loop of lines 164-166; `none` if `baseUnitsToEth` panics. -/
def writeBalances (st : HandlerState) : List AccountBalance → Option HandlerState
  | [] => some st
  | acc :: rest => do
    let eth ← baseUnitsToEth acc.Balance 19
    writeBalances
      (writeString st (formatValue "etherscan_balance".toList
        ("account=\"".toList ++ acc.Account ++ "\"".toList) eth)) rest

/-- Source `metrics` (lines 102-186).  The result is the final state; `none` when
the process exits in `getTestData` or the handler panics. -/
def metrics (cfg : Config) (world : World) (json : JsonDecoder) : Option HandlerState := do
  let st : HandlerState := { up := 1, w := [], log := [.text "Serving /metrics".toList] }
  let f ← fetch cfg world
  let st := checkErr st f.err
  let st := checkErr st f.errBlockNumber
  let st := checkErr st f.errBlockNumberTestnet
  let jsonData := jsonUnmarshal json.balanceMulti f.jsonString {}
  let jsonDataBlockNumber := jsonUnmarshal json.blockNumber f.jsonStringBlockNumber {}
  let jsonDataBlockNumberTestnet :=
    jsonUnmarshal json.blockNumber f.jsonStringBlockNumberTestnet {}
  let st :=
    if jsonData.Status ≠ "1".toList then
      { logPrint (logPrint st (.text ("Received negative status in JSON response '".toList ++
          jsonData.Status ++ "'".toList))) (.text f.jsonString) with up := 0 }
    else st
  let st := writeString st (formatValue "etherscan_up".toList [] (integerToString st.up))
  let st ← writeBalances st jsonData.Result
  let st := emitBlockNumber st "etherscan_block_number\x7bnetwork=\"mainnet\"\x7d".toList
    jsonDataBlockNumber.Result
  let st :=
    if f.jsonStringBlockNumberTestnet ≠ [] then
      emitBlockNumber st
        ("etherscan_block_number\x7bnetwork=\"".toList ++ cfg.testNet ++ "\"\x7d".toList)
        jsonDataBlockNumberTestnet.Result
    else st
  pure st

/-! ## Vocabulary of the specification -/

/-- The lines of a text, each with the newline that ends it; text after the last
newline, if any, forms a last line. -/
def textLines : GoString → List GoString
  | [] => []
  | c :: cs =>
    if c = '\n' then [c] :: textLines cs
    else
      match textLines cs with
      | [] => [[c]]
      | l :: ls => (c :: l) :: ls

/-- A single line of text: no newline except the one that ends it. -/
def IsTextLine (w : GoString) : Prop := ∃ t, w = t ++ ['\n'] ∧ '\n' ∉ t

/-- The integer part of a rendered decimal: the text before the first `.`. -/
def integerPart (out : GoString) : GoString := out.takeWhile (· ≠ '.')

/-- Value of one hexadecimal digit, in either letter case; `none` for any other byte. -/
def hexDigitValue (c : Char) : Option Nat :=
  if '0'.toNat ≤ c.toNat ∧ c.toNat ≤ '9'.toNat then some (c.toNat - '0'.toNat)
  else if 'a'.toNat ≤ c.toNat ∧ c.toNat ≤ 'f'.toNat then some (c.toNat - 'a'.toNat + 10)
  else if 'A'.toNat ≤ c.toNat ∧ c.toNat ≤ 'F'.toNat then some (c.toNat - 'A'.toNat + 10)
  else none

/-- A hexadecimal digit, in either letter case. -/
def isHexDigit (c : Char) : Bool := (hexDigitValue c).isSome

/-- One step of positional base-16 evaluation. -/
def hexStep (acc : Nat) (c : Char) : Nat := 16 * acc + (hexDigitValue c).getD 0

/-- The number a string of hexadecimal digits denotes, most significant digit first. -/
def hexNat (h : GoString) : Nat := h.foldl hexStep 0

/-- The number denoted by a non-empty string of hexadecimal digits; `none` for
the empty string and for a string with any other byte. -/
def hexValue (h : GoString) : Option Nat :=
  if h ≠ [] ∧ h.all isHexDigit = true then some (hexNat h) else none

/-- The signed 64-bit number denoted by an optional sign followed by a non-empty
string of hexadecimal digits; `none` when the text has another form or the number
is outside `-2^63 .. 2^63 - 1`. -/
def signedHexValue (t : GoString) : Option Int :=
  match t with
  | '+' :: b => (hexValue b).bind fun n => if n < 2 ^ 63 then some (n : Int) else none
  | '-' :: b => (hexValue b).bind fun n => if n ≤ 2 ^ 63 then some (-(n : Int)) else none
  | b => (hexValue b).bind fun n => if n < 2 ^ 63 then some (n : Int) else none

/-- The exposition line of the `etherscan_up` gauge. -/
def upLine (v : GoString) : GoString := "etherscan_up ".toList ++ v ++ "\n".toList

/-- The exposition line of one account balance. -/
def balanceLineText (account eth : GoString) : GoString :=
  "etherscan_balance\x7baccount=\"".toList ++ account ++ "\"\x7d ".toList ++ eth ++ "\n".toList

/-- The exposition line of a block number under a network label. -/
def blockNumberLine (network : GoString) (n : Int) : GoString :=
  "etherscan_block_number\x7bnetwork=\"".toList ++ network ++ "\"\x7d ".toList ++
    integer64ToString n ++ "\n".toList

/-- The balance lines of a decoded result list: one per entry, in the list's order,
each carrying `baseUnitsToEth balance 19`. -/
def IsBalanceLines (accs : List AccountBalance) (lines : List GoString) : Prop :=
  List.Forall₂ (fun acc line => ∃ eth, baseUnitsToEth acc.Balance 19 = some eth ∧
    line = balanceLineText acc.Account eth) accs lines

/-- The fixture files of test mode can be read (so `getTestData` does not end the
process); nothing is required outside test mode. -/
def FixturesReadable (cfg : Config) (world : World) : Prop :=
  cfg.testMode = "1".toList →
    ∃ dir b1 b2, world.getwd = .ok dir ∧
      world.readFile (dir ++ "/".toList ++ "test.json".toList) = .ok b1 ∧
      world.readFile (dir ++ "/".toList ++ "test-blocknumber.json".toList) = .ok b2

/-! ## Concrete inputs -/

/-- A world in which every request is answered with status 200 and the given body,
and no fixture file can be read. -/
def worldOk (body : GoString) : World where
  respond := fun _ => .ok { StatusCode := 200, Body := body, ReadErr := none }
  getwd := .ok "/app".toList
  readFile := fun _ => .error (.lib "no such file or directory".toList)

/-- A world in which the requests to the main API are answered with status 200 and
the given body, and every request to another host (`https://api-...`) fails. -/
def worldSecondaryDown (body : GoString) : World where
  respond := fun url =>
    if "https://api-".toList.isPrefixOf url then .error (.lib "no such host".toList)
    else .ok { StatusCode := 200, Body := body, ReadErr := none }
  getwd := .ok "/app".toList
  readFile := fun _ => .error (.lib "no such file or directory".toList)

/-- A decoder that yields status `1`, the given accounts and the given block-number
result from any non-empty input. -/
def jsonConst (accs : List AccountBalance) (result : GoString) : JsonDecoder where
  balanceMulti := fun _ v => { v with Status := "1".toList, Result := accs }
  blockNumber := fun _ v => { v with Result := result }

/-- Configuration outside test mode with one account and the given secondary network. -/
def liveCfg (testNet : GoString) : Config :=
  { testMode := [], accountIds := "0xabc".toList, apiKey := "KEY".toList, testNet := testNet }

/-- Configuration in test mode. -/
def testCfg : Config :=
  { testMode := "1".toList, accountIds := [], apiKey := [], testNet := [] }

/-- The account of the specification's end-to-end scenario. -/
def demoAccounts : List AccountBalance :=
  [{ Account := "0xabc".toList, Balance := "1230000000000000000".toList }]

/-- A world without network in which both fixture files of test mode exist under
the working directory `/app`. -/
def worldFixtures (balances blockNumber : GoString) : World where
  respond := fun _ => .error (.lib "connection refused".toList)
  getwd := .ok "/app".toList
  readFile := fun path =>
    if path = "/app/test.json".toList then .ok balances
    else if path = "/app/test-blocknumber.json".toList then .ok blockNumber
    else .error (.lib "no such file or directory".toList)

/-- A world in which the balance request fails with HTTP status 503 and every
other request is answered with status 200 and the given body. -/
def worldBalanceDown (body : GoString) : World where
  respond := fun url =>
    if (API_URL_MAINNET ++ "?module=account".toList).isPrefixOf url then
      .ok { StatusCode := 503, Body := "unavailable".toList, ReadErr := none }
    else .ok { StatusCode := 200, Body := body, ReadErr := none }
  getwd := .ok "/app".toList
  readFile := fun _ => .error (.lib "no such file or directory".toList)

/-- The configuration used in the examples: one account, secondary network `ropsten`. -/
def ropstenCfg : Config := liveCfg "ropsten".toList

/-- The decoder of the specification's end-to-end scenario: account `0xabc` with
balance `1230000000000000000`, block-number result `0x2a`. -/
def scenarioJson : JsonDecoder := jsonConst demoAccounts "0x2a".toList

/-- The same decoder with the malformed block-number result `0x1g`. -/
def malformedJson : JsonDecoder := jsonConst demoAccounts "0x1g".toList

/-- The world of test mode with both fixture files present. -/
def fixtureWorld : World := worldFixtures "balances".toList "blocknumber".toList

/-- The world in which every request succeeds. -/
def okWorld : World := worldOk "ok".toList

/-- The world in which only the balance request fails. -/
def balanceDownWorld : World := worldBalanceDown "ok".toList

/-- The world in which only the request to the secondary host fails. -/
def secondaryDownWorld : World := worldSecondaryDown "ok".toList

/-! ## Closed forms and intermediate states used in the proofs -/

/-- The value after the padding step of `baseUnitsToEth`, for precision `n+1`. -/
def padded (s : GoString) (n : Nat) : GoString :=
  List.replicate (n + 1 - s.length) '0' ++ s

/-- The signed value the specification assigns to a sign flag and a digit string. -/
def signedOf (neg : Bool) (b : GoString) : Option Int :=
  (hexValue b).bind fun n =>
    if neg then (if n ≤ 2 ^ 63 then some (-(n : Int)) else none)
    else (if n < 2 ^ 63 then some (n : Int) else none)

/-- The text `baseUnitsToEth` returns at precision 19. -/
def eth19 (balance : GoString) : GoString :=
  (padded balance 18).take ((padded balance 18).length - 18) ++
    '.' :: (padded balance 18).drop ((padded balance 18).length - 18)

/-- The line the loop of lines 164-166 writes for one account. -/
def balanceLine (acc : AccountBalance) : GoString :=
  formatValue "etherscan_balance".toList
    ("account=\"".toList ++ acc.Account ++ "\"".toList) (eth19 acc.Balance)

/-- The state of `metrics` after line 160, before anything is written. -/
def preOutput (json : JsonDecoder) (f : Fetched) : HandlerState :=
  let st : HandlerState := { up := 1, w := [], log := [.text "Serving /metrics".toList] }
  let st := checkErr st f.err
  let st := checkErr st f.errBlockNumber
  let st := checkErr st f.errBlockNumberTestnet
  let jsonData := jsonUnmarshal json.balanceMulti f.jsonString {}
  if jsonData.Status ≠ "1".toList then
    { logPrint (logPrint st (.text ("Received negative status in JSON response '".toList ++
        jsonData.Status ++ "'".toList))) (.text f.jsonString) with up := 0 }
  else st

/-- The lines 176-185 of `metrics`, as a function of the state before them. -/
def secondaryStep (cfg : Config) (json : JsonDecoder) (f : Fetched) (st : HandlerState) :
    HandlerState :=
  if f.jsonStringBlockNumberTestnet ≠ [] then
    emitBlockNumber st
      ("etherscan_block_number\x7bnetwork=\"".toList ++ cfg.testNet ++ "\"\x7d".toList)
      (jsonUnmarshal json.blockNumber f.jsonStringBlockNumberTestnet {}).Result
  else st

/-- What a block-number branch writes for the network label `net` and the decoded
`result` field: one line when `parseBlockNumber` succeeds, nothing otherwise. -/
def blockWrites (net result : GoString) : List GoString :=
  match parseBlockNumber result with
  | (n, none) => [blockNumberLine net n]
  | (_, some _) => []

/-- What a block-number branch logs: the parse error, if any. -/
def blockLogs (result : GoString) : List LogEntry :=
  match parseBlockNumber result with
  | (_, none) => []
  | (_, some k) =>
    [.error (.numError "ParseInt".toList (stringsReplaceAll result "0x".toList []) k)]

/-! ## Unit converter: helper lemmas -/

theorem flatten_replicate_singleton (k : Nat) (c : Char) :
    (List.replicate k [c]).flatten = List.replicate k c := by
  induction k with
  | zero => rfl
  | succ k ih => simp [List.replicate_succ, ih]

theorem padded_length (s : GoString) (n : Nat) :
    (padded s n).length = max s.length (n + 1) := by
  simp only [padded, List.length_append, List.length_replicate]
  omega

/-- Closed form of `baseUnitsToEth` at a precision `n+1 ≥ 1`: no slice is out of range. -/
theorem baseUnitsToEth_succ (s : GoString) (n : Nat) :
    baseUnitsToEth s ((n : Int) + 1) =
      some ((padded s n).take ((padded s n).length - n) ++
        '.' :: (padded s n).drop ((padded s n).length - n)) := by
  have hlen := padded_length s n
  by_cases h : s.length < n + 1
  · have h1 : ((s.length : Int) < (n : Int) + 1) := by omega
    have h2 : ¬ ((n : Int) + 1 - (s.length : Int) < 0) := by omega
    have h3 : ((n : Int) + 1 - (s.length : Int)).toNat = n + 1 - s.length := by omega
    have hp : padded s n = List.replicate (n + 1 - s.length) '0' ++ s := rfl
    have hl : (List.replicate (n + 1 - s.length) '0' ++ s).length = n + 1 := by
      simp only [List.length_append, List.length_replicate]; omega
    simp only [baseUnitsToEth, stringsRepeat, h1, h2, if_true, if_false, h3,
      flatten_replicate_singleton, Option.map_some', Option.bind_eq_bind, Option.some_bind,
      sliceTo, sliceFrom, hp, hl]
    have h4 : (((n + 1 : Nat) : Int) - ((n : Int) + 1) + 1) = 1 := by push_cast; omega
    have h5 : n + 1 - n = 1 := by omega
    simp [h4, h5]
  · have h1 : ¬ ((s.length : Int) < (n : Int) + 1) := by omega
    have hp : padded s n = s := by
      have : n + 1 - s.length = 0 := by omega
      simp [padded, this]
    have h4 : (0 : Int) ≤ (s.length : Int) - ((n : Int) + 1) + 1 ∧
        (s.length : Int) - ((n : Int) + 1) + 1 ≤ (s.length : Int) := by omega
    have h5 : ((s.length : Int) - ((n : Int) + 1) + 1).toNat = s.length - n := by omega
    simp only [baseUnitsToEth, h1, if_false, Option.bind_eq_bind, Option.some_bind,
      sliceTo, sliceFrom, h4, h5, hp]
    simp

theorem padded_digits (s : GoString) (n : Nat) (hs : ∀ c ∈ s, c.isDigit = true) :
    ∀ c ∈ padded s n, c.isDigit = true := by
  intro c hc
  simp only [padded, List.mem_append, List.mem_replicate] at hc
  rcases hc with ⟨_, rfl⟩ | hc
  · decide
  · exact hs c hc

theorem not_mem_point_of_digits (l : GoString) (hl : ∀ c ∈ l, c.isDigit = true) : '.' ∉ l := by
  intro h
  have := hl '.' h
  revert this
  decide

/-! ## Hexadecimal decoding: helper lemmas -/

theorem le_lower (n : Nat) : n ≤ lower n := by
  apply Nat.le_of_testBit
  intro i hi
  simp [lower, hi]

theorem digitOf_small : ∀ n : Fin 128,
    (digitOf (Char.ofNat n.val)).bind (fun d => if d ≥ 16 then none else some d) =
      hexDigitValue (Char.ofNat n.val) := by
  decide

theorem digitOf_hex (c : Char) :
    (digitOf c).bind (fun d => if d ≥ 16 then none else some d) = hexDigitValue c := by
  by_cases h : c.toNat < 128
  · have := digitOf_small ⟨c.toNat, h⟩
    simpa using this
  · have h1 := le_lower c.toNat
    have h2 : ¬ ('0'.toNat ≤ c.toNat ∧ c.toNat ≤ '9'.toNat) := by
      intro hh; have : '9'.toNat = 57 := by decide
      omega
    have h3 : ¬ ('a'.toNat ≤ lower c.toNat ∧ lower c.toNat ≤ 'z'.toNat) := by
      intro hh; have : 'z'.toNat = 122 := by decide
      omega
    have h4 : ¬ ('a'.toNat ≤ c.toNat ∧ c.toNat ≤ 'f'.toNat) := by
      intro hh; have : 'f'.toNat = 102 := by decide
      omega
    have h5 : ¬ ('A'.toNat ≤ c.toNat ∧ c.toNat ≤ 'F'.toNat) := by
      intro hh; have : 'F'.toNat = 70 := by decide
      omega
    simp only [digitOf, hexDigitValue, h2, h3, h4, h5, if_false, Option.none_bind]

theorem hexDigitValue_lt (c : Char) (d : Nat) (h : hexDigitValue c = some d) : d < 16 := by
  rw [← digitOf_hex] at h
  cases hd : digitOf c with
  | none => simp [hd] at h
  | some e =>
    simp only [hd, Option.some_bind] at h
    split at h
    · simp at h
    · simp only [Option.some.injEq] at h; omega

theorem digitOf_of_hex (c : Char) (d : Nat) (h : hexDigitValue c = some d) :
    digitOf c = some d ∧ d < 16 := by
  have hlt := hexDigitValue_lt c d h
  rw [← digitOf_hex] at h
  cases hd : digitOf c with
  | none => simp [hd] at h
  | some e =>
    simp only [hd, Option.some_bind] at h
    split at h
    · simp at h
    · simp only [Option.some.injEq] at h; subst h; exact ⟨rfl, hlt⟩

theorem digitOf_not_hex (c : Char) (h : hexDigitValue c = none) :
    digitOf c = none ∨ ∃ d, digitOf c = some d ∧ d ≥ 16 := by
  rw [← digitOf_hex] at h
  cases hd : digitOf c with
  | none => exact Or.inl rfl
  | some e =>
    simp only [hd, Option.some_bind] at h
    split at h
    · exact Or.inr ⟨e, rfl, by assumption⟩
    · simp at h

theorem foldl_hexStep_ge (cs : GoString) (n : Nat) : n ≤ cs.foldl hexStep n := by
  induction cs generalizing n with
  | nil => simp
  | cons c cs ih =>
    simp only [List.foldl_cons]
    have := ih (hexStep n c)
    simp only [hexStep] at this ⊢
    omega

/-- The digit loop of `ParseUint` computes the positional value of a string of
hexadecimal digits, reports a syntax error exactly when some byte is not a
hexadecimal digit before any overflow, and a range error on overflow. -/
theorem parseUintLoop_cases (cs : GoString) (n : Nat) (hn : n < 2 ^ 64) :
    (parseUintLoop cs n = (cs.foldl hexStep n, none) ∧
        (∀ c ∈ cs, isHexDigit c = true) ∧ cs.foldl hexStep n < 2 ^ 64) ∨
    (parseUintLoop cs n = (0, some .invalid) ∧ ¬ (∀ c ∈ cs, isHexDigit c = true)) ∨
    (parseUintLoop cs n = (2 ^ 64 - 1, some .range) ∧
        ((∀ c ∈ cs, isHexDigit c = true) → 2 ^ 64 ≤ cs.foldl hexStep n)) := by
  induction cs generalizing n with
  | nil => exact Or.inl ⟨rfl, by simp, hn⟩
  | cons c cs ih =>
    cases hv : hexDigitValue c with
    | none =>
      have hnot : ¬ (∀ x ∈ c :: cs, isHexDigit x = true) := by
        intro hall
        have := hall c (List.mem_cons_self _ _)
        simp [isHexDigit, hv] at this
      right; left
      refine ⟨?_, hnot⟩
      rcases digitOf_not_hex c hv with hd | ⟨d, hd, hge⟩
      · simp only [parseUintLoop, hd]
      · simp only [parseUintLoop, hd, hge, if_true]
    | some d =>
      obtain ⟨hd, hlt⟩ := digitOf_of_hex c d hv
      have hstep : hexStep n c = 16 * n + d := by simp [hexStep, hv]
      have hc : isHexDigit c = true := by simp [isHexDigit, hv]
      have hge := foldl_hexStep_ge cs (hexStep n c)
      by_cases hcut : n ≥ (2 ^ 64 - 1) / 16 + 1
      · right; right
        refine ⟨?_, ?_⟩
        · have h16 : ¬ d ≥ 16 := by omega
          simp only [parseUintLoop, hd, h16, hcut, if_true, if_false]
        · intro _
          simp only [List.foldl_cons]
          omega
      · have h16 : ¬ d ≥ 16 := by omega
        have hm1 : n * 16 % 2 ^ 64 = n * 16 := Nat.mod_eq_of_lt (by omega)
        have hm2 : (n * 16 + d) % 2 ^ 64 = n * 16 + d := Nat.mod_eq_of_lt (by omega)
        have hchk : ¬ (n * 16 + d < n * 16 ∨ n * 16 + d > 2 ^ 64 - 1) := by omega
        have hrec : parseUintLoop (c :: cs) n = parseUintLoop cs (hexStep n c) := by
          simp only [parseUintLoop, hd, h16, hcut, if_false, hm1, hm2, hchk, hstep]
          congr 1; omega
        have hall : (∀ x ∈ c :: cs, isHexDigit x = true) ↔ (∀ x ∈ cs, isHexDigit x = true) := by
          simp [hc]
        rw [hrec, hall]
        simp only [List.foldl_cons]
        exact ih (hexStep n c) (by rw [hstep]; omega)

theorem hexValue_eq_some (b : GoString) (v : Nat) (h : hexValue b = some v) :
    b ≠ [] ∧ (∀ c ∈ b, isHexDigit c = true) ∧ v = b.foldl hexStep 0 := by
  unfold hexValue at h
  split at h
  · rename_i hc
    simp only [Option.some.injEq] at h
    exact ⟨hc.1, by simpa using hc.2, by rw [← h]; rfl⟩
  · simp at h

theorem hexValue_eq_none (b : GoString) (h : hexValue b = none) :
    b = [] ∨ ¬ (∀ c ∈ b, isHexDigit c = true) := by
  unfold hexValue at h
  split at h
  · simp at h
  · rename_i hc
    by_cases hb : b = []
    · exact Or.inl hb
    · right
      intro hall
      exact hc ⟨hb, by simpa using hall⟩

theorem ParseUint_of_hexValue (b : GoString) (v : Nat) (h : hexValue b = some v) :
    (v < 2 ^ 64 → ParseUint b = (v, none)) ∧
    (2 ^ 64 ≤ v → ParseUint b = (2 ^ 64 - 1, some .range)) := by
  obtain ⟨hne, hall, rfl⟩ := hexValue_eq_some b v h
  have hU : ParseUint b = parseUintLoop b 0 := by simp [ParseUint, hne]
  rw [hU]
  rcases parseUintLoop_cases b 0 (by norm_num) with ⟨h1, _, h3⟩ | ⟨_, h2⟩ | ⟨h1, h2⟩
  · exact ⟨fun _ => h1, fun hge => by omega⟩
  · exact absurd hall h2
  · have := h2 hall
    exact ⟨fun hlt => by omega, fun _ => h1⟩

theorem ParseUint_of_not_hexValue (b : GoString) (h : hexValue b = none) :
    ParseUint b = (0, some .invalid) ∨ ParseUint b = (2 ^ 64 - 1, some .range) := by
  rcases hexValue_eq_none b h with rfl | hnot
  · left; rfl
  · have hne : b ≠ [] := by
      rintro rfl
      exact hnot (by simp)
    have hU : ParseUint b = parseUintLoop b 0 := by simp [ParseUint, hne]
    rw [hU]
    rcases parseUintLoop_cases b 0 (by norm_num) with ⟨_, h2, _⟩ | ⟨h1, _⟩ | ⟨h1, _⟩
    · exact absurd h2 hnot
    · exact Or.inl h1
    · exact Or.inr h1

theorem wrapInt64_of_lt (n : Nat) (h : n < 2 ^ 63) : wrapInt64 (n : Int) = (n : Int) := by
  unfold wrapInt64
  omega

theorem wrapInt64_neg (n : Nat) (h : n ≤ 2 ^ 63) :
    wrapInt64 (-(wrapInt64 (n : Int))) = -(n : Int) := by
  unfold wrapInt64
  omega

theorem signedResult_range (neg : Bool) :
    ∃ v, signedResult neg (2 ^ 64 - 1, some .range) = (v, some .range) := by
  cases neg
  · exact ⟨((2 ^ 63 : Nat) : Int) - 1, by simp [signedResult]⟩
  · exact ⟨-((2 ^ 63 : Nat) : Int), by simp [signedResult]⟩

theorem signedResult_ok (neg : Bool) (b : GoString) (v : Int) (h : signedOf neg b = some v) :
    signedResult neg (ParseUint b) = (v, none) := by
  unfold signedOf at h
  cases hb : hexValue b with
  | none => simp [hb] at h
  | some n =>
    simp only [hb, Option.some_bind] at h
    cases neg with
    | true =>
      simp only [if_true] at h
      split at h
      · rename_i hle
        simp only [Option.some.injEq] at h
        have hU := (ParseUint_of_hexValue b n hb).1 (by omega)
        have h1 : ¬ n > 2 ^ 63 := by omega
        rw [hU]
        simp only [signedResult, h1, and_false, if_false, if_true, Bool.true_eq_false,
          false_and]
        rw [← h, wrapInt64_neg n hle]
      · simp at h
    | false =>
      simp only [Bool.false_eq_true, if_false] at h
      split at h
      · rename_i hlt
        simp only [Option.some.injEq] at h
        have hU := (ParseUint_of_hexValue b n hb).1 (by omega)
        have h1 : ¬ n ≥ 2 ^ 63 := by omega
        rw [hU]
        simp only [signedResult, h1, and_false, if_false, Bool.false_eq_true, false_and]
        rw [← h, wrapInt64_of_lt n hlt]
      · simp at h

theorem signedResult_err (neg : Bool) (b : GoString) (h : signedOf neg b = none) :
    ∃ v k, signedResult neg (ParseUint b) = (v, some k) := by
  unfold signedOf at h
  cases hb : hexValue b with
  | none =>
    rcases ParseUint_of_not_hexValue b hb with hU | hU
    · rw [hU]; exact ⟨0, .invalid, rfl⟩
    · rw [hU]
      obtain ⟨v, hv⟩ := signedResult_range neg
      exact ⟨v, .range, hv⟩
  | some n =>
    simp only [hb, Option.some_bind] at h
    by_cases h64 : n < 2 ^ 64
    · have hU := (ParseUint_of_hexValue b n hb).1 h64
      rw [hU]
      cases neg with
      | true =>
        simp only [if_true] at h
        split at h
        · simp at h
        · rename_i hgt
          have h1 : n > 2 ^ 63 := by omega
          exact ⟨-((2 ^ 63 : Nat) : Int), .range, by simp only [signedResult, h1, and_self,
            if_true, Bool.true_eq_false, false_and, if_false]⟩
      | false =>
        simp only [Bool.false_eq_true, if_false] at h
        split at h
        · simp at h
        · rename_i hge
          have h1 : n ≥ 2 ^ 63 := by omega
          exact ⟨((2 ^ 63 : Nat) : Int) - 1, .range,
            by simp only [signedResult, h1, and_self, if_true]⟩
    · have hU := (ParseUint_of_hexValue b n hb).2 (by omega)
      rw [hU]
      obtain ⟨v, hv⟩ := signedResult_range neg
      exact ⟨v, .range, hv⟩

/-- `ParseInt` and the specification's signed value agree through one sign flag
and one digit string. -/
theorem ParseInt_signedOf (t : GoString) :
    ∃ neg b, signedHexValue t = signedOf neg b ∧
      (t ≠ [] → ParseInt t = signedResult neg (ParseUint b)) ∧ (t = [] → b = []) := by
  unfold signedHexValue ParseInt
  split
  · rename_i b
    exact ⟨false, b, by simp [signedOf], fun _ => by simp, fun h => by simp at h⟩
  · rename_i b
    exact ⟨true, b, by simp [signedOf], fun _ => by simp, fun h => by simp at h⟩
  · exact ⟨false, t, by simp [signedOf], fun hne => by simp only [hne, if_false], fun h => h⟩

theorem ParseInt_ok (t : GoString) (v : Int) (h : signedHexValue t = some v) :
    ParseInt t = (v, none) := by
  obtain ⟨neg, b, h1, h2, h3⟩ := ParseInt_signedOf t
  rw [h1] at h
  have hne : t ≠ [] := by
    rintro rfl
    rw [h3 rfl] at h
    simp [signedOf, hexValue] at h
  rw [h2 hne]
  exact signedResult_ok neg b v h

theorem ParseInt_err (t : GoString) (h : signedHexValue t = none) :
    ∃ v k, ParseInt t = (v, some k) := by
  obtain ⟨neg, b, h1, h2, _⟩ := ParseInt_signedOf t
  by_cases hne : t = []
  · subst hne
    exact ⟨0, .invalid, rfl⟩
  · rw [h2 hne]
    exact signedResult_err neg b (h1 ▸ h)

theorem signedHexValue_of_hex (h : GoString) (hne : h ≠ [])
    (hh : ∀ c ∈ h, isHexDigit c = true) (hn : hexNat h < 2 ^ 63) :
    signedHexValue h = some (hexNat h : Int) := by
  have hv : hexValue h = some (hexNat h) := by
    have hall : h.all isHexDigit = true := by simpa using hh
    simp [hexValue, hne, hall]
  unfold signedHexValue
  split
  · rename_i b
    have : isHexDigit '+' = true := hh '+' (List.mem_cons_self _ _)
    exact absurd this (by decide)
  · rename_i b
    have : isHexDigit '-' = true := hh '-' (List.mem_cons_self _ _)
    exact absurd this (by decide)
  · simp only [hv, Option.some_bind, hn, if_true]

/-! ## Removal of `0x`: helper lemmas -/

theorem replaceFrom_no_x (h : GoString) (hx : 'x' ∉ h) :
    replaceFrom "0x".toList [] 0 h = h := by
  induction h with
  | nil => rfl
  | cons c cs ih =>
    have hcs : 'x' ∉ cs := fun hm => hx (List.mem_cons_of_mem _ hm)
    have hp : List.isPrefixOf "0x".toList (c :: cs) = false := by
      cases cs with
      | nil => simp [List.isPrefixOf]
      | cons d ds =>
        have hd : d ≠ 'x' := by
          rintro rfl
          exact hcs (List.mem_cons_self _ _)
        simp [List.isPrefixOf, Ne.symm hd]
    simp only [replaceFrom, hp, ih hcs]
    simp

theorem hex_no_x (h : GoString) (hh : ∀ c ∈ h, isHexDigit c = true) : 'x' ∉ h := by
  intro hm
  have := hh 'x' hm
  revert this
  decide

theorem stringsReplaceAll_0x (h : GoString) (hh : ∀ c ∈ h, isHexDigit c = true) :
    stringsReplaceAll ("0x".toList ++ h) "0x".toList [] = h := by
  have := replaceFrom_no_x h (hex_no_x h hh)
  simp only [stringsReplaceAll]
  show replaceFrom "0x".toList [] 0 ('0' :: 'x' :: h) = h
  simp only [replaceFrom, List.isPrefixOf]
  simpa using this

/-! ## Request handler: helper lemmas -/

theorem baseUnitsToEth_19 (balance : GoString) :
    baseUnitsToEth balance 19 = some (eth19 balance) :=
  baseUnitsToEth_succ balance 18

theorem writeBalances_eq (st : HandlerState) (l : List AccountBalance) :
    writeBalances st l = some { st with w := st.w ++ l.map balanceLine } := by
  induction l generalizing st with
  | nil => simp [writeBalances]
  | cons acc rest ih =>
    simp only [writeBalances, baseUnitsToEth_19, Option.bind_eq_bind, Option.some_bind, ih,
      writeString, balanceLine, List.map_cons, List.append_assoc, List.singleton_append]

theorem checkErr_w (st : HandlerState) (e : Option GoError) : (checkErr st e).w = st.w := by
  cases e <;> rfl

theorem checkErr_up (st : HandlerState) (e : Option GoError) :
    (checkErr st e).up = if e = none then st.up else 0 := by
  cases e <;> rfl

theorem preOutput_w (json : JsonDecoder) (f : Fetched) : (preOutput json f).w = [] := by
  unfold preOutput
  simp only []
  split <;> simp [logPrint, checkErr_w]

theorem preOutput_up (json : JsonDecoder) (f : Fetched) :
    (preOutput json f).up =
      if f.err = none ∧ f.errBlockNumber = none ∧ f.errBlockNumberTestnet = none ∧
        (jsonUnmarshal json.balanceMulti f.jsonString {}).Status = "1".toList then 1 else 0 := by
  unfold preOutput
  simp only []
  split
  · rename_i h
    rw [if_neg]
    intro hh
    exact h hh.2.2.2
  · rename_i h
    have h1 : (jsonUnmarshal json.balanceMulti f.jsonString {}).Status = "1".toList := by
      simpa using h
    simp only [checkErr_up, h1, and_true]
    by_cases a : f.err = none <;> by_cases b : f.errBlockNumber = none <;>
      by_cases c : f.errBlockNumberTestnet = none <;> simp [a, b, c]

/-- Closed form of `metrics` once the inputs have been fetched: the handler always
runs to its end. -/
theorem metrics_eq (cfg : Config) (world : World) (json : JsonDecoder) (f : Fetched)
    (hf : fetch cfg world = some f) :
    metrics cfg world json = some (secondaryStep cfg json f
      (emitBlockNumber
        { up := (preOutput json f).up,
          w := formatValue "etherscan_up".toList [] (integerToString (preOutput json f).up) ::
            (jsonUnmarshal json.balanceMulti f.jsonString {}).Result.map balanceLine,
          log := (preOutput json f).log }
        "etherscan_block_number\x7bnetwork=\"mainnet\"\x7d".toList
        (jsonUnmarshal json.blockNumber f.jsonStringBlockNumber {}).Result)) := by
  have hw := preOutput_w json f
  have key : metrics cfg world json =
      (writeBalances (writeString (preOutput json f)
        (formatValue "etherscan_up".toList [] (integerToString (preOutput json f).up)))
        (jsonUnmarshal json.balanceMulti f.jsonString {}).Result).bind
      (fun st => some (secondaryStep cfg json f (emitBlockNumber st
        "etherscan_block_number\x7bnetwork=\"mainnet\"\x7d".toList
        (jsonUnmarshal json.blockNumber f.jsonStringBlockNumber {}).Result))) := by
    unfold metrics
    simp only [hf, Option.bind_eq_bind, Option.some_bind]
    rfl
  rw [key, writeBalances_eq]
  simp only [Option.some_bind, writeString, hw, List.nil_append, List.singleton_append]

theorem emitBlockNumber_ok (st : HandlerState) (key result : GoString) (n : Int)
    (h : parseBlockNumber result = (n, none)) :
    emitBlockNumber st key result =
      { st with w := st.w ++ [formatValue key [] (integer64ToString n)] } := by
  simp only [emitBlockNumber, h, writeString]

theorem emitBlockNumber_err (st : HandlerState) (key result : GoString) (v : Int)
    (k : NumErrKind) (h : parseBlockNumber result = (v, some k)) :
    emitBlockNumber st key result =
      { up := 0, w := st.w,
        log := st.log ++ [.error (.numError "ParseInt".toList
          (stringsReplaceAll result "0x".toList []) k)] } := by
  simp only [emitBlockNumber, h, logPrint]

theorem balanceLine_eq (acc : AccountBalance) :
    balanceLine acc = balanceLineText acc.Account (eth19 acc.Balance) := by
  simp [balanceLine, balanceLineText, formatValue]

theorem isBalanceLines_map (accs : List AccountBalance) :
    IsBalanceLines accs (accs.map balanceLine) := by
  unfold IsBalanceLines
  induction accs with
  | nil => exact List.Forall₂.nil
  | cons acc rest ih =>
    exact List.Forall₂.cons ⟨eth19 acc.Balance, baseUnitsToEth_19 _, balanceLine_eq acc⟩ ih

theorem upLine_eq (v : GoString) :
    formatValue "etherscan_up".toList [] v = upLine v := by
  simp [formatValue, upLine]

theorem mainnetLine_eq (n : Int) :
    formatValue "etherscan_block_number\x7bnetwork=\"mainnet\"\x7d".toList [] (integer64ToString n) =
      blockNumberLine "mainnet".toList n := by
  simp [formatValue, blockNumberLine]

theorem testnetLine_eq (net : GoString) (n : Int) :
    formatValue ("etherscan_block_number\x7bnetwork=\"".toList ++ net ++ "\"\x7d".toList) []
      (integer64ToString n) = blockNumberLine net n := by
  simp [formatValue, blockNumberLine]

theorem queryData_err_body (world : World) (root path : GoString)
    (h : (queryData world root path).2 ≠ none) : (queryData world root path).1 = [] := by
  unfold queryData at h ⊢
  simp only [] at h ⊢
  cases hg : httpGet world (root ++ path) with
  | error e => simp only [hg]
  | ok resp =>
    by_cases hs : resp.StatusCode ≠ 200
    · simp only [hg]
      rw [if_pos hs]
    · simp only [hg] at h ⊢
      rw [if_neg hs] at h ⊢
      cases hr : resp.ReadErr with
      | some e => simp only [hr]
      | none => simp only [hr, ne_eq, not_true_eq_false] at h

theorem fetch_live (cfg : Config) (world : World) (h : cfg.testMode ≠ "1".toList) :
    ∃ f, fetch cfg world = some f ∧
      f.jsonString = (queryData world API_URL_MAINNET (balancePath cfg)).1 ∧
      f.err = (queryData world API_URL_MAINNET (balancePath cfg)).2 ∧
      f.jsonStringBlockNumber = (queryData world API_URL_MAINNET (blockNumberPath cfg)).1 ∧
      f.errBlockNumber = (queryData world API_URL_MAINNET (blockNumberPath cfg)).2 ∧
      (cfg.testNet ≠ [] →
        f.jsonStringBlockNumberTestnet =
          (queryData world (testNetUrl cfg) (blockNumberPath cfg)).1 ∧
        f.errBlockNumberTestnet =
          (queryData world (testNetUrl cfg) (blockNumberPath cfg)).2) ∧
      (cfg.testNet = [] → f.jsonStringBlockNumberTestnet = [] ∧ f.errBlockNumberTestnet = none) := by
  unfold fetch
  simp only [h, if_false]
  by_cases hn : cfg.testNet = []
  · simp [hn]
  · simp [hn]

theorem fetch_some (cfg : Config) (world : World) (h : FixturesReadable cfg world) :
    ∃ f, fetch cfg world = some f := by
  by_cases ht : cfg.testMode = "1".toList
  · obtain ⟨dir, b1, b2, h0, h1, h2⟩ := h ht
    refine ⟨{ jsonString := b1, err := none, jsonStringBlockNumber := b2,
              errBlockNumber := none }, ?_⟩
    have g1 : getTestData world "test.json".toList = some (b1, none) := by
      simp only [getTestData, h0, h1]
    have g2 : getTestData world "test-blocknumber.json".toList = some (b2, none) := by
      simp only [getTestData, h0, h2]
    simp only [fetch, ht, if_true, g1, g2, Option.bind_eq_bind, Option.some_bind]
    rfl
  · obtain ⟨f, hf, _⟩ := fetch_live cfg world ht
    exact ⟨f, hf⟩

theorem emitBlockNumber_mainnet (st : HandlerState) (result : GoString) :
    emitBlockNumber st "etherscan_block_number\x7bnetwork=\"mainnet\"\x7d".toList result =
      { up := if (parseBlockNumber result).2 = none then st.up else 0,
        w := st.w ++ blockWrites "mainnet".toList result,
        log := st.log ++ blockLogs result } := by
  rcases hp : parseBlockNumber result with ⟨n, _ | k⟩
  · rw [emitBlockNumber_ok st _ result n hp, mainnetLine_eq]
    simp [blockWrites, blockLogs, hp]
  · rw [emitBlockNumber_err st _ result n k hp]
    simp [blockWrites, blockLogs, hp]

theorem emitBlockNumber_testnet (st : HandlerState) (net result : GoString) :
    emitBlockNumber st
        ("etherscan_block_number\x7bnetwork=\"".toList ++ net ++ "\"\x7d".toList) result =
      { up := if (parseBlockNumber result).2 = none then st.up else 0,
        w := st.w ++ blockWrites net result,
        log := st.log ++ blockLogs result } := by
  rcases hp : parseBlockNumber result with ⟨n, _ | k⟩
  · rw [emitBlockNumber_ok st _ result n hp, testnetLine_eq]
    simp [blockWrites, blockLogs, hp]
  · rw [emitBlockNumber_err st _ result n k hp]
    simp [blockWrites, blockLogs, hp]

/-- Everything `metrics` writes and logs, once the inputs have been fetched. -/
theorem metrics_w (cfg : Config) (world : World) (json : JsonDecoder) (f : Fetched)
    (hf : fetch cfg world = some f) :
    ∃ st, metrics cfg world json = some st ∧
      st.w = upLine (integerToString (preOutput json f).up) ::
        ((jsonUnmarshal json.balanceMulti f.jsonString {}).Result.map balanceLine ++
          blockWrites "mainnet".toList
            (jsonUnmarshal json.blockNumber f.jsonStringBlockNumber {}).Result ++
          (if f.jsonStringBlockNumberTestnet ≠ [] then
            blockWrites cfg.testNet
              (jsonUnmarshal json.blockNumber f.jsonStringBlockNumberTestnet {}).Result
           else [])) ∧
      st.log = (preOutput json f).log ++
        blockLogs (jsonUnmarshal json.blockNumber f.jsonStringBlockNumber {}).Result ++
        (if f.jsonStringBlockNumberTestnet ≠ [] then
          blockLogs (jsonUnmarshal json.blockNumber f.jsonStringBlockNumberTestnet {}).Result
         else []) := by
  refine ⟨_, metrics_eq cfg world json f hf, ?_, ?_⟩
  · rw [emitBlockNumber_mainnet, upLine_eq]
    unfold secondaryStep
    split
    · rw [emitBlockNumber_testnet]; simp
    · simp
  · rw [emitBlockNumber_mainnet]
    unfold secondaryStep
    split
    · rw [emitBlockNumber_testnet]
    · simp

theorem preOutput_up_cases (json : JsonDecoder) (f : Fetched) :
    (preOutput json f).up = 0 ∨ (preOutput json f).up = 1 := by
  rw [preOutput_up]
  split
  · exact Or.inr rfl
  · exact Or.inl rfl

/-! ## Request URLs: helper lemmas -/

theorem testNetUrl_eq (cfg : Config) :
    testNetUrl cfg = "https://api-".toList ++ cfg.testNet ++ ".etherscan.io/api".toList := by
  rfl

/-- The requests of one scrape go to pairwise different URLs, so answering by URL
puts no constraint on how the three calls of one scrape turn out. -/
theorem request_urls_distinct (cfg : Config) :
    API_URL_MAINNET ++ balancePath cfg ≠ API_URL_MAINNET ++ blockNumberPath cfg ∧
    testNetUrl cfg ++ blockNumberPath cfg ≠ API_URL_MAINNET ++ balancePath cfg ∧
    testNetUrl cfg ++ blockNumberPath cfg ≠ API_URL_MAINNET ++ blockNumberPath cfg := by
  rw [testNetUrl_eq]
  refine ⟨?_, ?_, ?_⟩ <;> intro h <;>
    simp [API_URL_MAINNET, balancePath, blockNumberPath] at h

/-! ## Line labels: helper lemmas -/

theorem blockNumberLine_label (net : GoString) (n : Int) :
    "etherscan_block_number".toList <+: blockNumberLine net n :=
  ⟨"\x7bnetwork=\"".toList ++ net ++ "\"\x7d ".toList ++ integer64ToString n ++ "\n".toList,
    by simp [blockNumberLine]⟩

theorem balanceLineText_label (account eth : GoString) :
    "etherscan_balance".toList <+: balanceLineText account eth :=
  ⟨"\x7baccount=\"".toList ++ account ++ "\"\x7d ".toList ++ eth ++ "\n".toList,
    by simp [balanceLineText]⟩

theorem labels_disjoint (l : GoString) (h : "etherscan_block_number".toList <+: l) :
    ¬ "etherscan_balance".toList <+: l := by
  obtain ⟨t, rfl⟩ := h
  rintro ⟨u, hu⟩
  simp at hu

theorem upLine_label (v l : GoString) (h : l = upLine v) :
    ¬ "etherscan_balance".toList <+: l ∧ ¬ "etherscan_block_number".toList <+: l := by
  subst h
  constructor
  · rintro ⟨u, hu⟩
    simp [upLine] at hu
  · rintro ⟨u, hu⟩
    simp [upLine] at hu

theorem blockWrites_label (net result l : GoString) (h : l ∈ blockWrites net result) :
    "etherscan_block_number".toList <+: l := by
  unfold blockWrites at h
  split at h
  · simp only [List.mem_singleton] at h
    rw [h]
    exact blockNumberLine_label _ _
  · simp at h

theorem jsonUnmarshal_empty {α : Type} (fill : GoString → α → α) (v : α) :
    jsonUnmarshal fill [] v = v := by
  simp [jsonUnmarshal]

/-! ## Text lines: helper lemmas -/

theorem digitChar_isDigit : ∀ k : Fin 10, (Nat.digitChar k.val).isDigit = true := by
  decide

theorem toDigitsCore_isDigit (fuel : Nat) : ∀ (n : Nat) (ds : List Char),
    (∀ c ∈ ds, c.isDigit = true) → ∀ c ∈ Nat.toDigitsCore 10 fuel n ds, c.isDigit = true := by
  induction fuel with
  | zero => intro n ds h; simpa [Nat.toDigitsCore] using h
  | succ fuel ih =>
    intro n ds h
    have hd : (Nat.digitChar (n % 10)).isDigit = true :=
      digitChar_isDigit ⟨n % 10, Nat.mod_lt _ (by decide)⟩
    have hcons : ∀ c ∈ Nat.digitChar (n % 10) :: ds, c.isDigit = true := by
      intro c hc
      rcases List.mem_cons.1 hc with rfl | hc
      · exact hd
      · exact h c hc
    unfold Nat.toDigitsCore
    simp only []
    split
    · exact hcons
    · exact ih _ _ hcons

theorem FormatInt_no_newline (v : Int) : '\n' ∉ FormatInt v := by
  have hdig : ∀ n : Nat, '\n' ∉ Nat.toDigits 10 n := by
    intro n hm
    have := toDigitsCore_isDigit _ _ _ (by simp) '\n' hm
    exact absurd this (by decide)
  unfold FormatInt
  split
  · intro hm
    rcases List.mem_cons.1 hm with h | h
    · exact absurd h (by decide)
    · exact hdig _ h
  · exact hdig _

theorem textLines_line (t rest : GoString) (ht : '\n' ∉ t) :
    textLines (t ++ '\n' :: rest) = (t ++ ['\n']) :: textLines rest := by
  induction t with
  | nil => simp [textLines]
  | cons c t ih =>
    have hc : c ≠ '\n' := fun h => ht (h ▸ List.mem_cons_self _ _)
    have ht2 : '\n' ∉ t := fun h => ht (List.mem_cons_of_mem _ h)
    have e := ih ht2
    simp only [List.cons_append, textLines, hc, if_false]
    rw [show t.append ('\n' :: rest) = t ++ '\n' :: rest from rfl, e]

theorem textLines_flatten (ws : List GoString) (h : ∀ w ∈ ws, IsTextLine w) :
    textLines ws.flatten = ws := by
  induction ws with
  | nil => rfl
  | cons w ws ih =>
    obtain ⟨t, rfl, ht⟩ := h w (List.mem_cons_self _ _)
    have := textLines_line t ws.flatten ht
    simp only [List.flatten_cons, List.append_assoc, List.singleton_append]
    rw [this, ih (fun w hw => h w (List.mem_cons_of_mem _ hw))]

theorem upLine_isTextLine (v : GoString) (hv : '\n' ∉ v) : IsTextLine (upLine v) := by
  refine ⟨"etherscan_up ".toList ++ v, by simp [upLine], ?_⟩
  simp only [List.mem_append, not_or]
  exact ⟨by decide, hv⟩

theorem blockNumberLine_isTextLine (net : GoString) (n : Int) (hnet : '\n' ∉ net) :
    IsTextLine (blockNumberLine net n) := by
  refine ⟨"etherscan_block_number\x7bnetwork=\"".toList ++ net ++ "\"\x7d ".toList ++
    integer64ToString n, by simp [blockNumberLine], ?_⟩
  simp only [List.mem_append, not_or]
  exact ⟨⟨⟨by decide, hnet⟩, by decide⟩, FormatInt_no_newline n⟩

theorem blockWrites_isTextLine (net result : GoString) (hnet : '\n' ∉ net) :
    ∀ w ∈ blockWrites net result, IsTextLine w := by
  intro w hw
  unfold blockWrites at hw
  split at hw
  · simp only [List.mem_singleton] at hw
    rw [hw]
    exact blockNumberLine_isTextLine _ _ hnet
  · simp at hw

/-- A non-empty body comes from a request that was made, so its URL has no control
byte. -/
theorem queryData_body_no_ctl (world : World) (root path : GoString)
    (h : (queryData world root path).1 ≠ []) : (root ++ path).any isCTL = false := by
  rcases Bool.eq_false_or_eq_true ((root ++ path).any isCTL) with hany | hany
  · exfalso
    apply h
    unfold queryData httpGet
    simp only [hany, if_true]
  · exact hany

theorem testNet_no_newline (cfg : Config) (world : World)
    (h : (queryData world (testNetUrl cfg) (blockNumberPath cfg)).1 ≠ []) :
    '\n' ∉ cfg.testNet := by
  intro hm
  have hno := queryData_body_no_ctl world _ _ h
  rw [testNetUrl_eq] at hno
  have hall := List.any_eq_false.1 hno '\n' (by simp [hm])
  exact hall (by decide)

/-! # Theorems -/

/-- C1: for every string `s` of decimal digits and every precision `p ≥ 1`,
`baseUnitsToEth s p` returns a string `ip ++ "." ++ fp` that contains exactly one
`.`; removing it yields `s` left-padded with `0` to length `max (len s) p` (all
digits kept, in order); exactly `p - 1` digits follow the `.`; and when
`len s < p` the part before the `.` is exactly `"0"`. -/
theorem baseUnitsToEth_point_placement (s : GoString) (p : Int)
    (hs : ∀ c ∈ s, c.isDigit = true) (hp : 1 ≤ p) :
    ∃ ip fp : GoString,
      baseUnitsToEth s p = some (ip ++ '.' :: fp) ∧
      (ip ++ '.' :: fp).count '.' = 1 ∧
      (ip ++ '.' :: fp).erase '.' =
        List.replicate (max s.length p.toNat - s.length) '0' ++ s ∧
      ((ip ++ '.' :: fp).erase '.').length = max s.length p.toNat ∧
      (fp.length : Int) = p - 1 ∧
      (∀ c ∈ ip ++ fp, c.isDigit = true) ∧
      ((s.length : Int) < p → ip = "0".toList) := by
  obtain ⟨n, rfl⟩ : ∃ n : Nat, p = (n : Int) + 1 := ⟨(p - 1).toNat, by omega⟩
  have hlen := padded_length s n
  have hdig := padded_digits s n hs
  have htd := List.take_append_drop ((padded s n).length - n) (padded s n)
  have hip : '.' ∉ (padded s n).take ((padded s n).length - n) :=
    not_mem_point_of_digits _ (fun c hc => hdig c (List.mem_of_mem_take hc))
  have hfp : '.' ∉ (padded s n).drop ((padded s n).length - n) :=
    not_mem_point_of_digits _ (fun c hc => hdig c (List.mem_of_mem_drop hc))
  have hpn : ((n : Int) + 1).toNat = n + 1 := by omega
  have herase : ((padded s n).take ((padded s n).length - n) ++
      '.' :: (padded s n).drop ((padded s n).length - n)).erase '.' = padded s n := by
    rw [List.erase_append_right _ hip, List.erase_cons_head, htd]
  have hmax : max s.length (n + 1) - s.length = n + 1 - s.length := by omega
  refine ⟨_, _, baseUnitsToEth_succ s n, ?_, ?_, ?_, ?_, ?_, ?_⟩
  · rw [List.count_append, List.count_cons_self, List.count_eq_zero_of_not_mem hip,
      List.count_eq_zero_of_not_mem hfp]
  · rw [herase, hpn, hmax]; rfl
  · rw [herase, hpn, hlen]
  · rw [List.length_drop]; omega
  · rw [htd]; exact hdig
  · intro hlt
    have hk : n + 1 - s.length = (n - s.length) + 1 := by omega
    have h1 : (padded s n).length - n = 1 := by omega
    rw [h1]
    simp [padded, hk, List.replicate_succ]

/-- Witness for C1 at the specification's example: `1230000000000000000` with
precision 19 renders as `1.230000000000000000`. -/
theorem baseUnitsToEth_point_placement_witness :
    baseUnitsToEth "1230000000000000000".toList 19 = some "1.230000000000000000".toList ∧
    ∃ ip fp : GoString,
      baseUnitsToEth "1230000000000000000".toList 19 = some (ip ++ '.' :: fp) ∧
      (ip ++ '.' :: fp).count '.' = 1 ∧
      (ip ++ '.' :: fp).erase '.' =
        List.replicate (max "1230000000000000000".toList.length (19 : Int).toNat -
          "1230000000000000000".toList.length) '0' ++ "1230000000000000000".toList ∧
      ((ip ++ '.' :: fp).erase '.').length =
        max "1230000000000000000".toList.length (19 : Int).toNat ∧
      (fp.length : Int) = 19 - 1 ∧
      (∀ c ∈ ip ++ fp, c.isDigit = true) ∧
      ((("1230000000000000000".toList.length : Nat) : Int) < 19 → ip = "0".toList) :=
  ⟨by decide,
   baseUnitsToEth_point_placement "1230000000000000000".toList 19 (by decide) (by decide)⟩

/-- C8 (as stated) fails: the 19-digit string `1230000000000000000` has length equal
to the precision 19, and the integer part of the result is `1`, not `0`. -/
theorem baseUnitsToEth_len_eq_precision_counterexample :
    (∀ c ∈ "1230000000000000000".toList, c.isDigit = true) ∧
    (("1230000000000000000".toList.length : Nat) : Int) = 19 ∧
    (baseUnitsToEth "1230000000000000000".toList 19).map integerPart = some "1".toList ∧
    (baseUnitsToEth "1230000000000000000".toList 19).map integerPart ≠ some "0".toList := by
  decide

/-- C8 (amended): for every string `s` of decimal digits whose length equals the
precision `p ≥ 1`, no padding happens and the integer part of `baseUnitsToEth s p`
is the first digit of `s`, followed by `.` and the remaining `p - 1` digits. -/
theorem baseUnitsToEth_len_eq_precision (s : GoString) (p : Int)
    (hs : ∀ c ∈ s, c.isDigit = true) (hp : 1 ≤ p) (hlen : (s.length : Int) = p) :
    ∃ d rest, s = d :: rest ∧
      baseUnitsToEth s p = some (d :: '.' :: rest) ∧
      (baseUnitsToEth s p).map integerPart = some [d] ∧
      (d = '0' ↔ (baseUnitsToEth s p).map integerPart = some "0".toList) := by
  obtain ⟨n, rfl⟩ : ∃ n : Nat, p = (n : Int) + 1 := ⟨(p - 1).toNat, by omega⟩
  have hl : s.length = n + 1 := by omega
  match s, hl with
  | d :: rest, hl =>
    have hd : d ≠ '.' := by
      intro h
      have := hs d (List.mem_cons_self _ _)
      rw [h] at this
      revert this
      decide
    have hr : rest.length = n := by simpa using hl
    have hpad : padded (d :: rest) n = d :: rest := by
      have : n + 1 - (d :: rest).length = 0 := by omega
      simp only [padded, this, List.replicate_zero, List.nil_append]
    have hk : (d :: rest).length - n = 1 := by omega
    have hres : baseUnitsToEth (d :: rest) ((n : Int) + 1) = some (d :: '.' :: rest) := by
      rw [baseUnitsToEth_succ, hpad, hk]; rfl
    refine ⟨d, rest, rfl, hres, ?_, ?_⟩
    · rw [hres]; simp [integerPart, List.takeWhile, hd]
    · rw [hres]; simp [integerPart, List.takeWhile, hd]

/-- Witness for the amended C8 at `s = "42"`, `p = 2`: the result is `4.2`. -/
theorem baseUnitsToEth_len_eq_precision_witness :
    ∃ d rest, "42".toList = d :: rest ∧
      baseUnitsToEth "42".toList 2 = some (d :: '.' :: rest) ∧
      (baseUnitsToEth "42".toList 2).map integerPart = some [d] ∧
      (d = '0' ↔ (baseUnitsToEth "42".toList 2).map integerPart = some "0".toList) :=
  baseUnitsToEth_len_eq_precision "42".toList 2 (by decide) (by decide) (by decide)

/-- C9: `formatValue key meta value` is `key ++ " " ++ value ++ "\n"` when `meta` is
empty and `key ++ "{" ++ meta ++ "}" ++ " " ++ value ++ "\n"` otherwise; the three
arguments appear unchanged. -/
theorem formatValue_shape (key meta value : GoString) :
    (meta = [] → formatValue key meta value = key ++ " ".toList ++ value ++ "\n".toList) ∧
    (meta ≠ [] → formatValue key meta value =
      key ++ "\x7b".toList ++ meta ++ "\x7d".toList ++ " ".toList ++ value ++ "\n".toList) := by
  constructor
  · intro h
    simp [formatValue, h]
  · intro h
    simp [formatValue, h]

/-- Witness for C9: a line without labels and a line with a label block. -/
theorem formatValue_shape_witness :
    formatValue "etherscan_up".toList [] "1".toList = "etherscan_up 1\n".toList ∧
    formatValue "etherscan_balance".toList "account=\"0xabc\"".toList "1.5".toList =
      "etherscan_balance\x7baccount=\"0xabc\"\x7d 1.5\n".toList :=
  ⟨(formatValue_shape "etherscan_up".toList [] "1".toList).1 rfl,
   (formatValue_shape "etherscan_balance".toList "account=\"0xabc\"".toList "1.5".toList).2
     (by decide)⟩

/-- C10 (as stated) fails at precision 0: the slice bound `len(value)-0+1` exceeds
`len(value)`, so `baseUnitsToEth` panics, both for `"5"` and for the empty string. -/
theorem baseUnitsToEth_precision_zero_counterexample :
    (∀ c ∈ "5".toList, c.isDigit = true) ∧ (0 : Int) ≤ 0 ∧
    sliceTo "5".toList (("5".toList.length : Int) - 0 + 1) = none ∧
    baseUnitsToEth "5".toList 0 = none ∧
    baseUnitsToEth [] 0 = none := by
  decide

/-- C10 (amended): for every string of decimal digits (the empty string included)
and every precision `p ≥ 1`, both slice expressions of `baseUnitsToEth` are within
the bounds of the (possibly padded) value `v`, and the function returns. -/
theorem baseUnitsToEth_total (s : GoString) (p : Int)
    (_hs : ∀ c ∈ s, c.isDigit = true) (hp : 1 ≤ p) :
    ∃ v ip fp : GoString,
      v = List.replicate (p.toNat - s.length) '0' ++ s ∧
      (0 ≤ (v.length : Int) - p + 1 ∧ (v.length : Int) - p + 1 ≤ v.length) ∧
      sliceTo v ((v.length : Int) - p + 1) = some ip ∧
      sliceFrom v ((v.length : Int) - p + 1) = some fp ∧
      baseUnitsToEth s p = some (ip ++ ".".toList ++ fp) := by
  obtain ⟨n, rfl⟩ : ∃ n : Nat, p = (n : Int) + 1 := ⟨(p - 1).toNat, by omega⟩
  have hpn : ((n : Int) + 1).toNat = n + 1 := by omega
  have hlen := padded_length s n
  have hb : 0 ≤ ((padded s n).length : Int) - ((n : Int) + 1) + 1 ∧
      ((padded s n).length : Int) - ((n : Int) + 1) + 1 ≤ (padded s n).length := by omega
  have hk : (((padded s n).length : Int) - ((n : Int) + 1) + 1).toNat =
      (padded s n).length - n := by omega
  refine ⟨padded s n, (padded s n).take ((padded s n).length - n),
    (padded s n).drop ((padded s n).length - n), ?_, hb, ?_, ?_, ?_⟩
  · rw [hpn]; rfl
  · simp only [sliceTo, hb, and_self, if_true, hk]
  · simp only [sliceFrom, hb, and_self, if_true, hk]
  · rw [baseUnitsToEth_succ]; simp

/-- Witness for the amended C10 at the empty string with precision 1: the result
is `0.`. -/
theorem baseUnitsToEth_total_witness :
    baseUnitsToEth [] 1 = some "0.".toList ∧
    ∃ v ip fp : GoString,
      v = List.replicate ((1 : Int).toNat - ([] : GoString).length) '0' ++ [] ∧
      (0 ≤ (v.length : Int) - 1 + 1 ∧ (v.length : Int) - 1 + 1 ≤ v.length) ∧
      sliceTo v ((v.length : Int) - 1 + 1) = some ip ∧
      sliceFrom v ((v.length : Int) - 1 + 1) = some fp ∧
      baseUnitsToEth [] 1 = some (ip ++ ".".toList ++ fp) :=
  ⟨by decide, baseUnitsToEth_total [] 1 (by simp) (by decide)⟩

/-- C6: for every non-empty string `h` of hexadecimal digits (either letter case)
whose value `n = hexNat h` is below `2^63`, the handler's decoding of the result
string `"0x" ++ h` (delete `0x`, then `ParseInt` base 16, 64 bits) succeeds and
yields exactly `n`. -/
theorem parseBlockNumber_decodes (h : GoString) (hne : h ≠ [])
    (hh : ∀ c ∈ h, isHexDigit c = true) (hn : hexNat h < 2 ^ 63) :
    parseBlockNumber ("0x".toList ++ h) = ((hexNat h : Int), none) := by
  unfold parseBlockNumber
  rw [stringsReplaceAll_0x h hh]
  exact ParseInt_ok h _ (signedHexValue_of_hex h hne hh hn)

/-- Witness for C6 at the specification's examples: `0x10` decodes to 16, `0x0` to 0
and `0x2a` to 42. -/
theorem parseBlockNumber_decodes_witness :
    (parseBlockNumber "0x10".toList = (16, none) ∧
      parseBlockNumber "0x0".toList = (0, none) ∧
      parseBlockNumber "0x2a".toList = (42, none)) ∧
    hexNat "2a".toList = 42 ∧
    parseBlockNumber ("0x".toList ++ "2a".toList) = ((hexNat "2a".toList : Int), none) :=
  ⟨by decide, by decide,
   parseBlockNumber_decodes "2a".toList (by decide) (by decide) (by decide)⟩

/-- C3 (as stated) fails in test mode when a fixture file cannot be read:
`getTestData` ends the process with `log.Fatal` before anything is written, so the
scrape has no `etherscan_up` line at all. -/
theorem metrics_body_counterexample :
    testCfg.testMode = "1".toList ∧
    getTestData (worldOk []) "test.json".toList = none ∧
    metrics testCfg (worldOk []) (jsonConst demoAccounts "0x2a".toList) = none := by
  decide

/-- C3 (amended): for every scrape that `metrics` runs to its end (always outside
test mode; in test mode when both fixture files can be read), what is written is, in
this order: one line `etherscan_up 0` or `etherscan_up 1`; one balance line per entry
of the decoded result list, in order, with `baseUnitsToEth balance 19`; the mainnet
block-number line exactly when the primary result parsed; the secondary block-number
line exactly when the secondary body is non-empty and its result parsed.  The body
is the concatenation of these lines and nothing else. -/
theorem metrics_body (cfg : Config) (world : World) (json : JsonDecoder)
    (hfix : FixturesReadable cfg world) :
    ∃ (f : Fetched) (st : HandlerState) (up : GoString) (bl p1 p2 : List GoString),
      fetch cfg world = some f ∧ metrics cfg world json = some st ∧
      st.w = [up] ++ bl ++ p1 ++ p2 ∧
      st.body = up ++ bl.flatten ++ p1.flatten ++ p2.flatten ∧
      (up = upLine "0".toList ∨ up = upLine "1".toList) ∧
      IsBalanceLines (jsonUnmarshal json.balanceMulti f.jsonString {}).Result bl ∧
      ((∃ n, parseBlockNumber
            (jsonUnmarshal json.blockNumber f.jsonStringBlockNumber {}).Result = (n, none) ∧
          p1 = [blockNumberLine "mainnet".toList n]) ∨
        ((parseBlockNumber
            (jsonUnmarshal json.blockNumber f.jsonStringBlockNumber {}).Result).2 ≠ none ∧
          p1 = [])) ∧
      ((∃ n, f.jsonStringBlockNumberTestnet ≠ [] ∧
          parseBlockNumber
            (jsonUnmarshal json.blockNumber f.jsonStringBlockNumberTestnet {}).Result =
              (n, none) ∧
          p2 = [blockNumberLine cfg.testNet n]) ∨
        (¬ (f.jsonStringBlockNumberTestnet ≠ [] ∧
            (parseBlockNumber
              (jsonUnmarshal json.blockNumber f.jsonStringBlockNumberTestnet {}).Result).2 =
                none) ∧
          p2 = [])) := by
  obtain ⟨f, hf⟩ := fetch_some cfg world hfix
  obtain ⟨st, hst, hw, _⟩ := metrics_w cfg world json f hf
  refine ⟨f, st, upLine (integerToString (preOutput json f).up),
    (jsonUnmarshal json.balanceMulti f.jsonString {}).Result.map balanceLine,
    blockWrites "mainnet".toList
      (jsonUnmarshal json.blockNumber f.jsonStringBlockNumber {}).Result,
    (if f.jsonStringBlockNumberTestnet ≠ [] then
      blockWrites cfg.testNet
        (jsonUnmarshal json.blockNumber f.jsonStringBlockNumberTestnet {}).Result
     else []),
    hf, hst, ?_, ?_, ?_, isBalanceLines_map _, ?_, ?_⟩
  · rw [hw]; simp only [List.singleton_append, List.append_assoc, List.cons_append,
      List.nil_append]
  · rw [HandlerState.body, hw]
    simp only [List.flatten_cons, List.flatten_append, List.append_assoc]
  · rcases preOutput_up_cases json f with h | h
    · left; rw [h]; rfl
    · right; rw [h]; rfl
  · rcases hp : parseBlockNumber
        (jsonUnmarshal json.blockNumber f.jsonStringBlockNumber {}).Result with ⟨n, _ | k⟩
    · left; exact ⟨n, rfl, by simp only [blockWrites, hp]⟩
    · right; exact ⟨by simp, by simp only [blockWrites, hp]⟩
  · by_cases hb : f.jsonStringBlockNumberTestnet ≠ []
    · rcases hp : parseBlockNumber
          (jsonUnmarshal json.blockNumber f.jsonStringBlockNumberTestnet {}).Result
        with ⟨n, _ | k⟩
      · left; exact ⟨n, hb, rfl, by rw [if_pos hb]; simp only [blockWrites, hp]⟩
      · right; exact ⟨by simp, by rw [if_pos hb]; simp only [blockWrites, hp]⟩
    · right
      exact ⟨fun h => hb h.1, by rw [if_neg hb]⟩

/-- C4: for every scrape outside test mode in which the balance call fails
(`queryData` returns an error, hence an empty body), whatever the block-number calls
do, the lines of the response body are exactly the lines written; the first is
`etherscan_up 0`, every other one is a block-number line, and none is an
`etherscan_balance` line. -/
theorem metrics_balance_call_fails (cfg : Config) (world : World) (json : JsonDecoder)
    (htest : cfg.testMode ≠ "1".toList)
    (herr : (queryData world API_URL_MAINNET (balancePath cfg)).2 ≠ none) :
    (queryData world API_URL_MAINNET (balancePath cfg)).1 = [] ∧
    ∃ (st : HandlerState) (rest : List GoString),
      metrics cfg world json = some st ∧
      textLines st.body = st.w ∧
      st.w = upLine "0".toList :: rest ∧
      (∀ l ∈ rest, "etherscan_block_number".toList <+: l) ∧
      upLine "0".toList ∈ textLines st.body ∧
      (∀ l ∈ textLines st.body, ¬ "etherscan_balance".toList <+: l) := by
  have hbody := queryData_err_body world _ _ herr
  obtain ⟨f, hf, hjs, hferr, _, _, hsec, hnosec⟩ := fetch_live cfg world htest
  obtain ⟨st, hst, hw, _⟩ := metrics_w cfg world json f hf
  have hup : (preOutput json f).up = 0 := by
    rw [preOutput_up, if_neg]
    intro hh
    exact herr (hferr ▸ hh.1)
  have hres : (jsonUnmarshal json.balanceMulti f.jsonString {}).Result = [] := by
    rw [hjs, hbody, jsonUnmarshal_empty]
  rw [hup, hres] at hw
  simp only [List.map_nil, List.nil_append] at hw
  have hrest : ∀ l ∈ blockWrites "mainnet".toList
        (jsonUnmarshal json.blockNumber f.jsonStringBlockNumber {}).Result ++
      (if f.jsonStringBlockNumberTestnet ≠ [] then
        blockWrites cfg.testNet
          (jsonUnmarshal json.blockNumber f.jsonStringBlockNumberTestnet {}).Result
       else []), "etherscan_block_number".toList <+: l ∧ IsTextLine l := by
    intro l hl
    rcases List.mem_append.1 hl with h | h
    · exact ⟨blockWrites_label _ _ _ h, blockWrites_isTextLine _ _ (by decide) l h⟩
    · split at h
      · rename_i hne
        have hnl : '\n' ∉ cfg.testNet := by
          by_cases hn : cfg.testNet = []
          · rw [hn]; simp
          · exact testNet_no_newline cfg world (by rw [← (hsec hn).1]; exact hne)
        exact ⟨blockWrites_label _ _ _ h, blockWrites_isTextLine _ _ hnl l h⟩
      · simp at h
  have hlines : textLines st.body = st.w := by
    apply textLines_flatten
    intro l hl
    rw [hw] at hl
    rcases List.mem_cons.1 hl with h | h
    · rw [h]; exact upLine_isTextLine _ (by decide)
    · exact (hrest l h).2
  have hmem : upLine "0".toList ∈ st.w := by
    rw [hw]; exact List.mem_cons_self _ _
  refine ⟨hbody, st, _, hst, hlines, hw, fun l hl => (hrest l hl).1, ?_, ?_⟩
  · rw [hlines]; exact hmem
  · intro l hl
    rw [hlines, hw] at hl
    rcases List.mem_cons.1 hl with h | h
    · exact (upLine_label _ l h).1
    · exact labels_disjoint l (hrest l h).1

set_option maxRecDepth 100000 in
/-- C5 (as stated) fails on two inputs, in both of which the balance call and the
primary call succeed and only the secondary call fails.  With the primary result
`0xffffffffffffffff` (a well-formed 0x-prefixed hexadecimal number, of value
`2^64 - 1`) the signed 64-bit parse fails and no block-number line is written.  With
the secondary network named `mainnet`, the response contains a block-number line
carrying the secondary network's label (the primary line). -/
theorem metrics_secondary_call_fails_counterexample :
    ((liveCfg "ropsten".toList).testMode ≠ "1".toList ∧
      (liveCfg "ropsten".toList).testNet ≠ [] ∧
      (queryData (worldSecondaryDown "ok".toList) API_URL_MAINNET
        (balancePath (liveCfg "ropsten".toList))).2 = none ∧
      (queryData (worldSecondaryDown "ok".toList) API_URL_MAINNET
        (blockNumberPath (liveCfg "ropsten".toList))).2 = none ∧
      (queryData (worldSecondaryDown "ok".toList) (testNetUrl (liveCfg "ropsten".toList))
        (blockNumberPath (liveCfg "ropsten".toList))).2 ≠ none ∧
      hexValue "ffffffffffffffff".toList = some (2 ^ 64 - 1) ∧
      (metrics (liveCfg "ropsten".toList) (worldSecondaryDown "ok".toList)
          (jsonConst demoAccounts "0xffffffffffffffff".toList)).map (·.w) =
        some [upLine "0".toList,
          balanceLineText "0xabc".toList "1.230000000000000000".toList]) ∧
    ((liveCfg "mainnet".toList).testMode ≠ "1".toList ∧
      (liveCfg "mainnet".toList).testNet ≠ [] ∧
      (queryData (worldSecondaryDown "ok".toList) API_URL_MAINNET
        (balancePath (liveCfg "mainnet".toList))).2 = none ∧
      (queryData (worldSecondaryDown "ok".toList) API_URL_MAINNET
        (blockNumberPath (liveCfg "mainnet".toList))).2 = none ∧
      (queryData (worldSecondaryDown "ok".toList) (testNetUrl (liveCfg "mainnet".toList))
        (blockNumberPath (liveCfg "mainnet".toList))).2 ≠ none ∧
      hexValue "2a".toList = some 42 ∧
      (metrics (liveCfg "mainnet".toList) (worldSecondaryDown "ok".toList)
          (jsonConst demoAccounts "0x2a".toList)).map (·.w) =
        some [upLine "0".toList,
          balanceLineText "0xabc".toList "1.230000000000000000".toList,
          blockNumberLine (liveCfg "mainnet".toList).testNet 42]) := by
  decide

/-- C5 (amended): for every scrape outside test mode with a secondary network
configured, in which the balance call and the primary block-number call succeed
(balance status `1`, primary result `"0x" ++ h` with `h` a non-empty string of
hexadecimal digits of value below `2^63`) and the secondary block-number call fails,
the lines written are exactly `etherscan_up 0`, the balance lines, and the mainnet
block-number line with the decoded height; the secondary branch writes nothing, so
the mainnet line is the only block-number line of the response. -/
theorem metrics_secondary_call_fails (cfg : Config) (world : World) (json : JsonDecoder)
    (h : GoString)
    (htest : cfg.testMode ≠ "1".toList) (hnet : cfg.testNet ≠ [])
    (_hbal : (queryData world API_URL_MAINNET (balancePath cfg)).2 = none)
    (_hstatus : (jsonUnmarshal json.balanceMulti
      (queryData world API_URL_MAINNET (balancePath cfg)).1 {}).Status = "1".toList)
    (_hblk : (queryData world API_URL_MAINNET (blockNumberPath cfg)).2 = none)
    (hres : (jsonUnmarshal json.blockNumber
      (queryData world API_URL_MAINNET (blockNumberPath cfg)).1 {}).Result = "0x".toList ++ h)
    (hne : h ≠ []) (hhex : ∀ c ∈ h, isHexDigit c = true) (hval : hexNat h < 2 ^ 63)
    (hsec : (queryData world (testNetUrl cfg) (blockNumberPath cfg)).2 ≠ none) :
    ∃ (st : HandlerState) (bl : List GoString),
      metrics cfg world json = some st ∧
      st.w = [upLine "0".toList] ++ bl ++ [blockNumberLine "mainnet".toList (hexNat h)] ∧
      IsBalanceLines (jsonUnmarshal json.balanceMulti
        (queryData world API_URL_MAINNET (balancePath cfg)).1 {}).Result bl ∧
      upLine "0".toList ∈ st.w ∧
      blockNumberLine "mainnet".toList (hexNat h) ∈ st.w ∧
      (∀ l ∈ st.w, "etherscan_block_number".toList <+: l →
        l = blockNumberLine "mainnet".toList (hexNat h)) := by
  obtain ⟨f, hf, hjs, hferr, hjb, hfeb, hsecondary, _⟩ := fetch_live cfg world htest
  obtain ⟨hjt, hfet⟩ := hsecondary hnet
  obtain ⟨st, hst, hw, _⟩ := metrics_w cfg world json f hf
  have hup : (preOutput json f).up = 0 := by
    rw [preOutput_up, if_neg]
    intro hh
    exact hsec (hfet ▸ hh.2.2.1)
  have hempty : f.jsonStringBlockNumberTestnet = [] := by
    rw [hjt]; exact queryData_err_body world _ _ hsec
  have hparse : parseBlockNumber
      (jsonUnmarshal json.blockNumber f.jsonStringBlockNumber {}).Result =
        ((hexNat h : Int), none) := by
    rw [hjb, hres]
    unfold parseBlockNumber
    rw [stringsReplaceAll_0x h hhex]
    exact ParseInt_ok h _ (signedHexValue_of_hex h hne hhex hval)
  have hp1 : blockWrites "mainnet".toList
      (jsonUnmarshal json.blockNumber f.jsonStringBlockNumber {}).Result =
        [blockNumberLine "mainnet".toList (hexNat h)] := by
    simp only [blockWrites, hparse]
  have hnot : ¬ f.jsonStringBlockNumberTestnet ≠ [] := fun hh => hh hempty
  rw [hup, hp1, if_neg hnot, hjs] at hw
  have hw2 : st.w = [upLine "0".toList] ++
      (jsonUnmarshal json.balanceMulti
        (queryData world API_URL_MAINNET (balancePath cfg)).1 {}).Result.map balanceLine ++
      [blockNumberLine "mainnet".toList (hexNat h)] := by
    rw [hw]; simp only [List.singleton_append, List.append_nil, List.cons_append]; rfl
  refine ⟨st, _, hst, hw2, isBalanceLines_map _, ?_, ?_, ?_⟩
  · rw [hw2]; simp
  · rw [hw2]; simp
  · intro l hl hlab
    rw [hw2] at hl
    simp only [List.mem_append, List.mem_singleton, List.mem_map] at hl
    rcases hl with (hl | ⟨acc, _, hl⟩) | hl
    · exact absurd hlab (upLine_label _ l hl).2
    · have : "etherscan_balance".toList <+: l := by
        rw [← hl, balanceLine_eq]; exact balanceLineText_label _ _
      exact absurd this (labels_disjoint l hlab)
    · exact hl

set_option maxRecDepth 100000 in
/-- C2 at a failing input: all three upstream calls succeed, the balance status is
`1`, and the decoded result `0xzz` of both block-number calls fails base-16 parsing.
The handler logs both errors and sets its local `up` to 0 (lines 171 and 181), but the
`etherscan_up` line was already written at line 163 and carries the value 1. -/
theorem metrics_parse_failure_up_line :
    (parseBlockNumber "0xzz".toList).2 = some .invalid ∧
    metrics ropstenCfg okWorld (jsonConst demoAccounts "0xzz".toList) =
      some { up := 0,
             w := [upLine "1".toList,
                   balanceLineText "0xabc".toList "1.230000000000000000".toList],
             log := [.text "Serving /metrics".toList,
                     .error (.numError "ParseInt".toList "zz".toList .invalid),
                     .error (.numError "ParseInt".toList "zz".toList .invalid)] } := by
  decide

set_option maxRecDepth 100000 in
/-- C7 (as stated) fails: in the result `0x10x2` the text after the `0x` prefix,
`10x2`, is not a base-16 number, yet the handler deletes every `0x`, parses `12`
and writes the mainnet block-number line with the value 18. -/
theorem metrics_invalid_body_counterexample :
    hexValue "10x2".toList = none ∧
    parseBlockNumber ("0x".toList ++ "10x2".toList) = (18, none) ∧
    (metrics (liveCfg []) (worldOk "ok".toList) (jsonConst [] "0x10x2".toList)).map (·.w) =
      some [upLine "1".toList, blockNumberLine "mainnet".toList 18] := by
  decide

/-- C7 (amended): in every scrape that `metrics` runs to its end, if the primary
result, after every occurrence of `0x` has been deleted, is not an optionally signed
non-empty string of hexadecimal digits denoting a signed 64-bit number, then the
decoding fails, the parse error is logged, and the primary branch writes no line
(what is written is the up line, the balance lines and what the secondary branch
writes).  The same holds for the secondary result whenever the secondary body is
non-empty: the error is logged and the secondary branch writes no line. -/
theorem metrics_invalid_body (cfg : Config) (world : World) (json : JsonDecoder)
    (hfix : FixturesReadable cfg world) :
    ∃ (f : Fetched) (st : HandlerState) (up : GoString) (bl : List GoString),
      fetch cfg world = some f ∧ metrics cfg world json = some st ∧
      (up = upLine "0".toList ∨ up = upLine "1".toList) ∧
      IsBalanceLines (jsonUnmarshal json.balanceMulti f.jsonString {}).Result bl ∧
      (signedHexValue (stringsReplaceAll
          (jsonUnmarshal json.blockNumber f.jsonStringBlockNumber {}).Result
          "0x".toList []) = none →
        (parseBlockNumber
          (jsonUnmarshal json.blockNumber f.jsonStringBlockNumber {}).Result).2 ≠ none ∧
        (∃ k, LogEntry.error (.numError "ParseInt".toList (stringsReplaceAll
          (jsonUnmarshal json.blockNumber f.jsonStringBlockNumber {}).Result
          "0x".toList []) k) ∈ st.log) ∧
        ∃ p2, st.w = [up] ++ bl ++ p2 ∧
          (p2 = [] ∨ ∃ n, f.jsonStringBlockNumberTestnet ≠ [] ∧
            parseBlockNumber
              (jsonUnmarshal json.blockNumber f.jsonStringBlockNumberTestnet {}).Result =
                (n, none) ∧
            p2 = [blockNumberLine cfg.testNet n])) ∧
      (f.jsonStringBlockNumberTestnet ≠ [] →
        signedHexValue (stringsReplaceAll
          (jsonUnmarshal json.blockNumber f.jsonStringBlockNumberTestnet {}).Result
          "0x".toList []) = none →
        (parseBlockNumber
          (jsonUnmarshal json.blockNumber f.jsonStringBlockNumberTestnet {}).Result).2 ≠
            none ∧
        (∃ k, LogEntry.error (.numError "ParseInt".toList (stringsReplaceAll
          (jsonUnmarshal json.blockNumber f.jsonStringBlockNumberTestnet {}).Result
          "0x".toList []) k) ∈ st.log) ∧
        ∃ p1, st.w = [up] ++ bl ++ p1 ∧
          (p1 = [] ∨ ∃ n,
            parseBlockNumber
              (jsonUnmarshal json.blockNumber f.jsonStringBlockNumber {}).Result =
                (n, none) ∧
            p1 = [blockNumberLine "mainnet".toList n])) := by
  obtain ⟨f, hf⟩ := fetch_some cfg world hfix
  obtain ⟨st, hst, hw, hlog⟩ := metrics_w cfg world json f hf
  refine ⟨f, st, upLine (integerToString (preOutput json f).up),
    (jsonUnmarshal json.balanceMulti f.jsonString {}).Result.map balanceLine,
    hf, hst, ?_, isBalanceLines_map _, ?_, ?_⟩
  · rcases preOutput_up_cases json f with h | h
    · left; rw [h]; rfl
    · right; rw [h]; rfl
  · intro hbad
    obtain ⟨v, k, hp⟩ := ParseInt_err _ hbad
    have hp1 : parseBlockNumber
        (jsonUnmarshal json.blockNumber f.jsonStringBlockNumber {}).Result = (v, some k) := hp
    have hb1 : blockWrites "mainnet".toList
        (jsonUnmarshal json.blockNumber f.jsonStringBlockNumber {}).Result = [] := by
      simp only [blockWrites, hp1]
    have hl1 : blockLogs (jsonUnmarshal json.blockNumber f.jsonStringBlockNumber {}).Result =
        [.error (.numError "ParseInt".toList (stringsReplaceAll
          (jsonUnmarshal json.blockNumber f.jsonStringBlockNumber {}).Result
          "0x".toList []) k)] := by
      simp only [blockLogs, hp1]
    refine ⟨by rw [hp1]; simp, ⟨k, ?_⟩, ?_⟩
    · rw [hlog, hl1]; simp
    · rw [hw, hb1]
      refine ⟨_, by simp only [List.singleton_append, List.append_nil, List.cons_append,
        List.nil_append, List.append_assoc]; rfl, ?_⟩
      by_cases hb : f.jsonStringBlockNumberTestnet ≠ []
      · rw [if_pos hb]
        rcases hp2 : parseBlockNumber
            (jsonUnmarshal json.blockNumber f.jsonStringBlockNumberTestnet {}).Result
          with ⟨n, _ | k2⟩
        · right; exact ⟨n, hb, rfl, by simp only [blockWrites, hp2]⟩
        · left; simp only [blockWrites, hp2]
      · left; rw [if_neg hb]
  · intro hb hbad
    obtain ⟨v, k, hp⟩ := ParseInt_err _ hbad
    have hp2 : parseBlockNumber
        (jsonUnmarshal json.blockNumber f.jsonStringBlockNumberTestnet {}).Result =
          (v, some k) := hp
    have hb2 : blockWrites cfg.testNet
        (jsonUnmarshal json.blockNumber f.jsonStringBlockNumberTestnet {}).Result = [] := by
      simp only [blockWrites, hp2]
    have hl2 : blockLogs
        (jsonUnmarshal json.blockNumber f.jsonStringBlockNumberTestnet {}).Result =
        [.error (.numError "ParseInt".toList (stringsReplaceAll
          (jsonUnmarshal json.blockNumber f.jsonStringBlockNumberTestnet {}).Result
          "0x".toList []) k)] := by
      simp only [blockLogs, hp2]
    refine ⟨by rw [hp2]; simp, ⟨k, ?_⟩, ?_⟩
    · rw [hlog, if_pos hb, hl2]; simp
    · rw [hw, if_pos hb, hb2]
      refine ⟨_, by simp only [List.singleton_append, List.append_nil, List.cons_append,
        List.nil_append, List.append_assoc]; rfl, ?_⟩
      rcases hp1 : parseBlockNumber
          (jsonUnmarshal json.blockNumber f.jsonStringBlockNumber {}).Result with ⟨n, _ | k1⟩
      · right; exact ⟨n, rfl, by simp only [blockWrites, hp1]⟩
      · left; simp only [blockWrites, hp1]

set_option maxRecDepth 100000 in
/-- Witness for the amended C3 in test mode with both fixture files present: the
body is the up line, the balance line of the specification's scenario and the
mainnet block-number line. -/
theorem metrics_body_witness :
    FixturesReadable testCfg fixtureWorld ∧
    (metrics testCfg fixtureWorld scenarioJson).map HandlerState.body =
      some ("etherscan_up 1\n".toList ++
        "etherscan_balance\x7baccount=\"0xabc\"\x7d 1.230000000000000000\n".toList ++
        "etherscan_block_number\x7bnetwork=\"mainnet\"\x7d 42\n".toList) ∧
    (∃ (f : Fetched) (st : HandlerState) (up : GoString) (bl p1 p2 : List GoString),
      fetch testCfg fixtureWorld = some f ∧ metrics testCfg fixtureWorld scenarioJson = some st ∧
      st.w = [up] ++ bl ++ p1 ++ p2 ∧
      st.body = up ++ bl.flatten ++ p1.flatten ++ p2.flatten ∧
      (up = upLine "0".toList ∨ up = upLine "1".toList) ∧
      IsBalanceLines (jsonUnmarshal scenarioJson.balanceMulti f.jsonString {}).Result bl ∧
      ((∃ n, parseBlockNumber
            (jsonUnmarshal scenarioJson.blockNumber f.jsonStringBlockNumber {}).Result = (n, none) ∧
          p1 = [blockNumberLine "mainnet".toList n]) ∨
        ((parseBlockNumber
            (jsonUnmarshal scenarioJson.blockNumber f.jsonStringBlockNumber {}).Result).2 ≠ none ∧
          p1 = [])) ∧
      ((∃ n, f.jsonStringBlockNumberTestnet ≠ [] ∧
          parseBlockNumber
            (jsonUnmarshal scenarioJson.blockNumber f.jsonStringBlockNumberTestnet {}).Result =
              (n, none) ∧
          p2 = [blockNumberLine testCfg.testNet n]) ∨
        (¬ (f.jsonStringBlockNumberTestnet ≠ [] ∧
            (parseBlockNumber
              (jsonUnmarshal scenarioJson.blockNumber f.jsonStringBlockNumberTestnet {}).Result).2 =
                none) ∧
          p2 = []))) :=
  ⟨fun _ => ⟨"/app".toList, "balances".toList, "blocknumber".toList, rfl, rfl, rfl⟩,
   by decide,
   metrics_body testCfg fixtureWorld scenarioJson
     (fun _ => ⟨"/app".toList, "balances".toList, "blocknumber".toList, rfl, rfl, rfl⟩)⟩

set_option maxRecDepth 100000 in
/-- Witness for the amended C7: every call succeeds and both decoded results are
`0x1g`; after deleting `0x` the text `1g` denotes no number, both errors are logged
and neither branch writes a line. -/
theorem metrics_invalid_body_witness :
    signedHexValue (stringsReplaceAll "0x1g".toList "0x".toList []) = none ∧
    metrics ropstenCfg okWorld malformedJson =
      some { up := 0,
             w := [upLine "1".toList,
                   balanceLineText "0xabc".toList "1.230000000000000000".toList],
             log := [.text "Serving /metrics".toList,
                     .error (.numError "ParseInt".toList "1g".toList .invalid),
                     .error (.numError "ParseInt".toList "1g".toList .invalid)] } ∧
    (∃ (f : Fetched) (st : HandlerState) (up : GoString) (bl : List GoString),
      fetch ropstenCfg okWorld = some f ∧ metrics ropstenCfg okWorld malformedJson = some st ∧
      (up = upLine "0".toList ∨ up = upLine "1".toList) ∧
      IsBalanceLines (jsonUnmarshal malformedJson.balanceMulti f.jsonString {}).Result bl ∧
      (signedHexValue (stringsReplaceAll
          (jsonUnmarshal malformedJson.blockNumber f.jsonStringBlockNumber {}).Result
          "0x".toList []) = none →
        (parseBlockNumber
          (jsonUnmarshal malformedJson.blockNumber f.jsonStringBlockNumber {}).Result).2 ≠ none ∧
        (∃ k, LogEntry.error (.numError "ParseInt".toList (stringsReplaceAll
          (jsonUnmarshal malformedJson.blockNumber f.jsonStringBlockNumber {}).Result
          "0x".toList []) k) ∈ st.log) ∧
        ∃ p2, st.w = [up] ++ bl ++ p2 ∧
          (p2 = [] ∨ ∃ n, f.jsonStringBlockNumberTestnet ≠ [] ∧
            parseBlockNumber
              (jsonUnmarshal malformedJson.blockNumber f.jsonStringBlockNumberTestnet {}).Result =
                (n, none) ∧
            p2 = [blockNumberLine ropstenCfg.testNet n])) ∧
      (f.jsonStringBlockNumberTestnet ≠ [] →
        signedHexValue (stringsReplaceAll
          (jsonUnmarshal malformedJson.blockNumber f.jsonStringBlockNumberTestnet {}).Result
          "0x".toList []) = none →
        (parseBlockNumber
          (jsonUnmarshal malformedJson.blockNumber f.jsonStringBlockNumberTestnet {}).Result).2 ≠
            none ∧
        (∃ k, LogEntry.error (.numError "ParseInt".toList (stringsReplaceAll
          (jsonUnmarshal malformedJson.blockNumber f.jsonStringBlockNumberTestnet {}).Result
          "0x".toList []) k) ∈ st.log) ∧
        ∃ p1, st.w = [up] ++ bl ++ p1 ∧
          (p1 = [] ∨ ∃ n,
            parseBlockNumber
              (jsonUnmarshal malformedJson.blockNumber f.jsonStringBlockNumber {}).Result =
                (n, none) ∧
            p1 = [blockNumberLine "mainnet".toList n]))) :=
  ⟨by decide, by decide,
   metrics_invalid_body ropstenCfg okWorld malformedJson (fun h => absurd h (by decide))⟩

set_option maxRecDepth 100000 in
/-- Witness for C4: the balance request is answered with status 503 while both
block-number requests succeed; the response is `etherscan_up 0` followed by the two
block-number lines. -/
theorem metrics_balance_call_fails_witness :
    ropstenCfg.testMode ≠ "1".toList ∧
    (queryData balanceDownWorld API_URL_MAINNET (balancePath ropstenCfg)).2 =
      some (.errorsNew "HTTP returned code 503".toList) ∧
    (metrics ropstenCfg balanceDownWorld scenarioJson).map HandlerState.body =
      some ("etherscan_up 0\n".toList ++
        "etherscan_block_number\x7bnetwork=\"mainnet\"\x7d 42\n".toList ++
        "etherscan_block_number\x7bnetwork=\"ropsten\"\x7d 42\n".toList) ∧
    ((queryData balanceDownWorld API_URL_MAINNET (balancePath ropstenCfg)).1 = [] ∧
    ∃ (st : HandlerState) (rest : List GoString),
      metrics ropstenCfg balanceDownWorld scenarioJson = some st ∧
      textLines st.body = st.w ∧
      st.w = upLine "0".toList :: rest ∧
      (∀ l ∈ rest, "etherscan_block_number".toList <+: l) ∧
      upLine "0".toList ∈ textLines st.body ∧
      (∀ l ∈ textLines st.body, ¬ "etherscan_balance".toList <+: l)) :=
  ⟨by decide, by decide, by decide,
   metrics_balance_call_fails ropstenCfg balanceDownWorld scenarioJson
     (by decide) (by decide)⟩

set_option maxRecDepth 100000 in
/-- Witness for the amended C5: only the request to the secondary host fails; the
response is `etherscan_up 0`, the balance line and the mainnet line with height 42. -/
theorem metrics_secondary_call_fails_witness :
    (queryData secondaryDownWorld (testNetUrl ropstenCfg) (blockNumberPath ropstenCfg)).2 =
      some (.lib "no such host".toList) ∧
    (metrics ropstenCfg secondaryDownWorld scenarioJson).map (·.w) =
      some [upLine "0".toList,
        balanceLineText "0xabc".toList "1.230000000000000000".toList,
        blockNumberLine "mainnet".toList 42] ∧
    hexNat "2a".toList = 42 ∧
    (∃ (st : HandlerState) (bl : List GoString),
      metrics ropstenCfg secondaryDownWorld scenarioJson = some st ∧
      st.w = [upLine "0".toList] ++ bl ++ [blockNumberLine "mainnet".toList (hexNat "2a".toList)] ∧
      IsBalanceLines (jsonUnmarshal scenarioJson.balanceMulti
        (queryData secondaryDownWorld API_URL_MAINNET (balancePath ropstenCfg)).1 {}).Result bl ∧
      upLine "0".toList ∈ st.w ∧
      blockNumberLine "mainnet".toList (hexNat "2a".toList) ∈ st.w ∧
      (∀ l ∈ st.w, "etherscan_block_number".toList <+: l →
        l = blockNumberLine "mainnet".toList (hexNat "2a".toList))) :=
  ⟨by decide, by decide, by decide,
   metrics_secondary_call_fails ropstenCfg secondaryDownWorld scenarioJson "2a".toList
     (by decide) (by decide) (by decide) (by decide) (by decide) (by decide) (by decide)
     (by decide) (by decide) (by decide)⟩

end Etherscan
